import Mathlib

set_option linter.unusedVariables false

/-!
Verification of the libgbaemu core against its specification.

The definitions below are shallow embeddings of the C sources:
  - `src/src/memory/memory.c` (wait-state tables, `mem_update_waitstates`,
    `mem_access`, `mem_prefetch_buffer_access_fast`, `template_write`,
    `template_read`),
  - `src/src/ppu/ppu.c` (`ppu_merge_layer`, `ppu_hdraw`),
  - `src/src/ppu/background/text.c` (per-pixel store of
    `ppu_render_background_text`),
  - `src/src/quicksave.c` (`quicksave`, `quickload` and their helpers).

Machine integers are modelled as `Nat` with explicit `% 2 ^ w` where the C
code can overflow or underflow.  Fallible C paths (functions returning a
`bool` error flag) are modelled with `Option`.
-/

/-- Access types of the memory bus.  The C enum `access_types` (declared in
the `gba` headers, which are not part of the extracted sources) has the two
values used as the first index of the wait-state tables; the designated
initializers in `memory.c` list `NON_SEQUENTIAL` then `SEQUENTIAL`. -/
inductive AccessType where
  | nonSequential
  | sequential
deriving DecidableEq, Repr

/-- Modelled from the spec: the memory-region page numbers ("a 4-bit
top-nibble of a 32-bit address selects the region", with the region order of
the table in section 3 and the three cartridge mirrors).  The names mirror
the constants of the missing `gba/memory.h`: BIOS = 0, EWRAM = 2, IWRAM = 3,
I/O = 4, palette = 5, VRAM = 6, OAM = 7, the three cartridge windows at
8/9, 10/11, 12/13, SRAM at 14 and its mirror at 15. -/
def CART_0_REGION_1 : Nat := 8

def CART_0_REGION_2 : Nat := 9

def CART_1_REGION_1 : Nat := 10

def CART_1_REGION_2 : Nat := 11

def CART_2_REGION_1 : Nat := 12

def CART_2_REGION_2 : Nat := 13

def SRAM_REGION : Nat := 14

def CART_REGION_START : Nat := 8

def CART_REGION_END : Nat := 13

/-- The static initializer of `access_time16` in `memory.c`:
`{ 1, 1, 3, 1, 1, 1, 1, 1, 0, 0, 0, 0, 0, 0, 0, 1 }` for both access
types. -/
def accessTime16Init : AccessType → Nat → Nat :=
  fun _ r => [1, 1, 3, 1, 1, 1, 1, 1, 0, 0, 0, 0, 0, 0, 0, 1].getD r 0

/-- The static initializer of `access_time32` in `memory.c`:
`{ 1, 1, 6, 1, 1, 2, 2, 1, 0, 0, 0, 0, 0, 0, 0, 1 }` for both access
types. -/
def accessTime32Init : AccessType → Nat → Nat :=
  fun _ r => [1, 1, 6, 1, 1, 2, 2, 1, 0, 0, 0, 0, 0, 0, 0, 1].getD r 0

/-- `static uint32_t gamepak_nonseq_waitstates[4] = { 4, 3, 2, 8 };` -/
def gamepakNonseqWaitstates : Fin 4 → Nat :=
  fun i => [4, 3, 2, 8].getD i.val 0

/-- The `REG_WAITCNT` bit fields read by `mem_update_waitstates`.  The field
widths follow the hardware register (2-bit wait-state selectors, 1-bit
fast-sequential flags); the struct itself lives in the missing `gba`
headers. -/
structure Waitcnt where
  sram : Fin 4
  ws0_nonseq : Fin 4
  ws0_seq : Bool
  ws1_nonseq : Fin 4
  ws1_seq : Bool
  ws2_nonseq : Fin 4
  ws2_seq : Bool

/-- The 16-bit table after `mem_update_waitstates` ran: the function mutates
the cartridge and SRAM columns of `access_time16` and leaves every other
entry of the previous table `t` unchanged. -/
def memUpdateWaitstates16 (w : Waitcnt) (t : AccessType → Nat → Nat) :
    AccessType → Nat → Nat :=
  fun a r =>
    match a with
    | AccessType.nonSequential =>
        if r = CART_0_REGION_1 ∨ r = CART_0_REGION_2 then
          1 + gamepakNonseqWaitstates w.ws0_nonseq
        else if r = CART_1_REGION_1 ∨ r = CART_1_REGION_2 then
          1 + gamepakNonseqWaitstates w.ws1_nonseq
        else if r = CART_2_REGION_1 ∨ r = CART_2_REGION_2 then
          1 + gamepakNonseqWaitstates w.ws2_nonseq
        else if r = SRAM_REGION then
          1 + gamepakNonseqWaitstates w.sram
        else t a r
    | AccessType.sequential =>
        if r = CART_0_REGION_1 ∨ r = CART_0_REGION_2 then
          1 + (if w.ws0_seq then 1 else 2)
        else if r = CART_1_REGION_1 ∨ r = CART_1_REGION_2 then
          1 + (if w.ws1_seq then 1 else 4)
        else if r = CART_2_REGION_1 ∨ r = CART_2_REGION_2 then
          1 + (if w.ws2_seq then 1 else 8)
        else if r = SRAM_REGION then
          1 + gamepakNonseqWaitstates w.sram
        else t a r

/-- The 32-bit table after `mem_update_waitstates` ran: the final loop
`for (x = CART_0_REGION_1; x <= SRAM_REGION; ++x)` rebuilds the cartridge
and SRAM columns of `access_time32` from the freshly written 16-bit table
`t16`; every other entry of the previous table `t32` is unchanged. -/
def memUpdateWaitstates32 (t16 : AccessType → Nat → Nat)
    (t32 : AccessType → Nat → Nat) : AccessType → Nat → Nat :=
  fun a r =>
    if CART_0_REGION_1 ≤ r ∧ r ≤ SRAM_REGION then
      match a with
      | AccessType.nonSequential =>
          t16 AccessType.nonSequential r + t16 AccessType.sequential r
      | AccessType.sequential => 2 * t16 AccessType.sequential r
    else t32 a r

/-- The per-window non-sequential selector used by `mem_update_waitstates`
(`ws0_nonseq` for regions 8/9, `ws1_nonseq` for 10/11, `ws2_nonseq` for
12/13). -/
def wsNonseqFor (w : Waitcnt) (r : Nat) : Fin 4 :=
  if r ≤ 9 then w.ws0_nonseq else if r ≤ 11 then w.ws1_nonseq else w.ws2_nonseq

/-- The per-window fast-sequential flag (`ws0_seq`, `ws1_seq`, `ws2_seq`). -/
def wsSeqFor (w : Waitcnt) (r : Nat) : Bool :=
  if r ≤ 9 then w.ws0_seq else if r ≤ 11 then w.ws1_seq else w.ws2_seq

/-- The slow sequential wait per window: 2 for window 0, 4 for window 1,
8 for window 2. -/
def slowSeqFor (r : Nat) : Nat :=
  if r ≤ 9 then 2 else if r ≤ 11 then 4 else 8

/-- The `struct prefetch_buffer` of the memory subsystem.  The field list is
the one given by the spec (section 3: `{ enabled, head, tail, countdown,
reload, insn_len, size, capacity }`); the struct itself is declared in the
missing `gba` headers.  All counters are 32-bit unsigned integers, like
every other scalar of the memory subsystem, so decrements below zero wrap
modulo `2 ^ 32`. -/
structure PrefetchBuffer where
  enabled : Bool
  head : Nat
  tail : Nat
  countdown : Nat
  reload : Nat
  insn_len : Nat
  size : Nat
  capacity : Nat
deriving DecidableEq, Repr

/-- The slice of `struct gba` read and written by `mem_access` and
`mem_prefetch_buffer_access_fast`: the prefetch buffer, the cartridge-bus
flag, `core.cpsr.thumb`, `core.is_dma_running`, and the two wait-state
tables (file-scope arrays in the C source). -/
structure MemBusState where
  pbuffer : PrefetchBuffer
  gamepak_bus_in_use : Bool
  thumb : Bool
  is_dma_running : Bool
  t16 : AccessType → Nat → Nat
  t32 : AccessType → Nat → Nat

/-- `align_addr_pow2` from `memory.c`: align the address down for sizes
1/2/4; the fallback `align_on(addr, size)` masks with the 32-bit complement
of `size - 1` (exact for the power-of-two sizes the bus uses). -/
def alignAddrPow2 (addr size : Nat) : Nat :=
  match size with
  | 1 => addr
  | 2 => addr - addr % 2
  | 4 => addr - addr % 4
  | _ => Nat.land addr (2 ^ 32 - size)

/-- `mem_prefetch_buffer_access_fast`: returns the number of cycles charged
(`core_idle_for` / `core_idle` argument) together with the new bus state.
On a hit with `size == 0` the C code executes `p->size--` on the 32-bit
unsigned field, wrapping to `2 ^ 32 - 1`. -/
def memPrefetchBufferAccessFast (s : MemBusState) (addr intended page : Nat) :
    Nat × MemBusState :=
  let p := s.pbuffer
  if p.tail = addr then
    if p.size = 0 then
      (p.countdown,
        { s with
          gamepak_bus_in_use := false
          pbuffer :=
            { p with
              tail := (p.tail + p.insn_len) % 2 ^ 32
              size := (p.size + (2 ^ 32 - 1)) % 2 ^ 32 } })
    else
      (1,
        { s with
          gamepak_bus_in_use := false
          pbuffer :=
            { p with
              tail := (p.tail + p.insn_len) % 2 ^ 32
              size := (p.size + (2 ^ 32 - 1)) % 2 ^ 32 } })
  else
    let insn_len := if s.thumb then 2 else 4
    let reload :=
      if s.thumb then s.t16 AccessType.sequential page
      else s.t32 AccessType.sequential page
    (intended,
      { s with
        pbuffer :=
          { p with
            insn_len := insn_len
            capacity := if s.thumb then 8 else 4
            reload := reload
            countdown := reload
            tail := (addr + insn_len) % 2 ^ 32
            head := (addr + insn_len) % 2 ^ 32
            size := 0 } })

/-- `mem_access`: computes the cycles charged for one bus access of `size`
bytes and the resulting bus state.  `addr` is a 32-bit address. -/
def memAccess (s : MemBusState) (addr size : Nat) (ty : AccessType) :
    Nat × MemBusState :=
  let addr := alignAddrPow2 addr size
  let region := addr / 2 ^ 24
  let page := region % 16
  let in_cart : Bool :=
    decide (CART_REGION_START ≤ region ∧ region ≤ CART_REGION_END)
  let ty :=
    if in_cart ∧ addr % 0x20000 = 0 then AccessType.nonSequential else ty
  let cycles := if size ≤ 2 then s.t16 ty page else s.t32 ty page
  let s := { s with gamepak_bus_in_use := in_cart }
  let can_prefetch : Bool := in_cart && s.pbuffer.enabled && !s.is_dma_running
  if can_prefetch then memPrefetchBufferAccessFast s addr cycles page
  else (cycles, s)

/-- Pointwise update of a byte map. -/
def updByte (f : Nat → Nat) (i v : Nat) : Nat → Nat :=
  fun j => if j = i then v else f j

/-- The palette RAM, VRAM and OAM backing stores touched by the
`template_write`/`template_read` region dispatch, as byte maps, together
with `io.dispcnt.bg_mode` which the VRAM byte-write case consults.
Modelled from the spec: palette and OAM are 1 KiB (offset mask `0x3FF`),
VRAM is 96 KiB mirrored inside a 128 KiB window (`VRAM_MASK_1 = 0x17FFF`
when bit 16 of the address is set, `VRAM_MASK_2 = 0xFFFF` otherwise); the
mask constants live in the missing `gba/memory.h`. -/
structure VideoMem where
  palram : Nat → Nat
  vram : Nat → Nat
  oam : Nat → Nat
  bg_mode : Nat

/-- `_addr & ((_addr & 0x10000) ? VRAM_MASK_1 : VRAM_MASK_2)` from the VRAM
cases of `template_read` and `template_write`. -/
def vramIndex (addr : Nat) : Nat :=
  if addr &&& 0x10000 ≠ 0 then addr &&& 0x17FFF else addr &&& 0xFFFF

/-- The byte-write dispatch of `template_write(uint8_t, ...)` restricted to
the palette / VRAM / OAM regions (the other regions of the switch do not
touch these stores).  `align(uint8_t, addr)` is the identity, so the
incoming address is used as is; the stored value is the `uint8_t` cast of
`val`. -/
def memWrite8Video (m : VideoMem) (addr val : Nat) : VideoMem :=
  let v := val % 256
  match addr / 2 ^ 24 with
  | 5 => { m with palram := updByte m.palram (addr &&& 0x3FF) v }
  | 6 =>
      let new_addr := addr &&& 0x1FFFF
      if (m.bg_mode ≤ 2 ∧ new_addr < 0x10000) ∨
          (3 ≤ m.bg_mode ∧ new_addr < 0x14000) then
        let addr_a := vramIndex addr
        let addr_b := vramIndex ((addr + 1) % 2 ^ 32)
        { m with vram := updByte (updByte m.vram addr_a v) addr_b v }
      else m
  | 7 => { m with oam := updByte m.oam (addr &&& 0x3FF) v }
  | _ => m

/-- The 16-bit read of `template_read(uint16_t, ...)` for the palette RAM
region: align the address down to 2, mask with `PALRAM_MASK`, and read two
consecutive bytes little-endian (`mem_region_read` of `sizeof(uint16_t)`). -/
def memRead16Palram (m : VideoMem) (addr : Nat) : Nat :=
  let a := addr - addr % 2
  let off := a &&& 0x3FF
  m.palram off + 256 * m.palram (off + 1)

/-- `struct rich_color` of the PPU: three 5-bit colour channels (values are
always below 32, the bit-field truncates stores modulo 32), the layer tag
`idx`, the visibility flag and the sprite semi-transparency flag. -/
structure RichColor where
  red : Nat
  green : Nat
  blue : Nat
  idx : Nat
  visible : Bool
  force_blend : Bool
deriving DecidableEq, Repr

/-- Modelled from the spec: the colour-effect modes of `BLDCNT` in their
hardware encoding (off, alpha, lighten, darken); the enum lives in the
missing `gba/ppu.h`. -/
def BLEND_OFF : Nat := 0

def BLEND_ALPHA : Nat := 1

def BLEND_LIGHT : Nat := 2

def BLEND_DARK : Nat := 3

/-- The slice of `struct io` hoisted by `ppu_merge_layer`. -/
structure MergeIo where
  bldalpha_top_coef : Nat
  bldalpha_bot_coef : Nat
  bldy_coef : Nat
  bldcnt_raw : Nat
  bldcnt_mode : Nat
  win0 : Bool
  win1 : Bool
  winobj : Bool

/-- One colour channel of the approximate alpha blend of `ppu_merge_layer`:
`(int32_t)topc.c + ((botc.c - topc.c) * evb >> 4)`, with the arithmetic
shift of a possibly negative `int32_t` (floor division by 16) and the final
store into the unsigned 5-bit bit-field (value taken modulo 32). -/
def alphaChan (t b evb : Nat) : Nat :=
  (((t : Int) + Int.fdiv (((b : Int) - (t : Int)) * (evb : Int)) 16) % 32).toNat

/-- One colour channel of `BLEND_LIGHT`:
`topc.c + (((31 - topc.c) * evy) >> 4)` stored into the 5-bit field. -/
def lightChan (t evy : Nat) : Nat :=
  (t + (31 - t) * evy / 16) % 32

/-- One colour channel of `BLEND_DARK`:
`topc.c - ((topc.c * evy) >> 4)` stored into the 5-bit field. -/
def darkChan (t evy : Nat) : Nat :=
  (t - t * evy / 16) % 32

/-- The loop body of `ppu_merge_layer` for one pixel `x`.  Inputs: the
hoisted IO invariants, `scanline->top_idx`, the window-option byte that
`ppu_find_top_window` would return for this pixel, and the current
`top[x]`, `bot[x]`, `result[x]` entries.  The result is the pair
(new `bot[x]`, new `result[x]`).  The C code builds its output
`struct rich_color out` without initializing `out.force_blend`; the model
uses `false` for that field (no claim depends on it). -/
def mergePixel (io : MergeIo) (top_idx : Nat) (win_opts : Nat)
    (topc botc resc : RichColor) : RichColor × RichColor :=
  let eva := if io.bldalpha_top_coef > 16 then 16 else io.bldalpha_top_coef
  let evb := if io.bldalpha_bot_coef > 16 then 16 else io.bldalpha_bot_coef
  let evy := if io.bldy_coef > 16 then 16 else io.bldy_coef
  let bldcnt := io.bldcnt_raw
  let windows_any : Bool :=
    decide (top_idx ≤ 4) && (io.win0 || io.win1 || io.winobj)
  let top_enabled_global : Bool := decide (bldcnt &&& (1 <<< top_idx) ≠ 0)
  if !topc.visible then (topc, resc)
  else if windows_any ∧ (win_opts >>> top_idx) &&& 1 = 0 then (botc, resc)
  else
    let mode_eff :=
      if windows_any ∧ (win_opts >>> 5) &&& 1 = 0 then BLEND_OFF
      else io.bldcnt_mode
    let bot_enabled : Bool := decide ((bldcnt >>> (8 + botc.idx)) &&& 1 ≠ 0)
    let mode_eff :=
      if topc.force_blend ∧ bot_enabled then BLEND_ALPHA else mode_eff
    if mode_eff = BLEND_OFF then (topc, topc)
    else if mode_eff = BLEND_ALPHA then
      if ¬(top_enabled_global ∨ topc.force_blend) ∨ ¬bot_enabled ∨
          ¬botc.visible then
        (topc, topc)
      else
        (topc,
          { red := alphaChan topc.red botc.red evb
            green := alphaChan topc.green botc.green evb
            blue := alphaChan topc.blue botc.blue evb
            idx := top_idx
            visible := true
            force_blend := false })
    else if mode_eff = BLEND_LIGHT then
      if top_enabled_global then
        (topc,
          { red := lightChan topc.red evy
            green := lightChan topc.green evy
            blue := lightChan topc.blue evy
            idx := topc.idx
            visible := true
            force_blend := false })
      else (topc, topc)
    else
      if top_enabled_global then
        (topc,
          { red := darkChan topc.red evy
            green := darkChan topc.green evy
            blue := darkChan topc.blue evy
            idx := topc.idx
            visible := true
            force_blend := false })
      else (topc, topc)

/-- The per-pixel store of `ppu_render_background_text` (the tail of its X
loop): a non-zero palette index writes a fresh entry carrying the resolved
colour, the BG index tag and `visible = true`; palette index 0 only clears
the `visible` flag of the existing entry (`scanline->bg[x].visible =
false`), leaving its other fields as they were. -/
def textPixelStore (prev : RichColor) (palette_idx color_raw bg_idx : Nat) :
    RichColor :=
  if palette_idx ≠ 0 then
    { red := color_raw % 32
      green := color_raw / 32 % 32
      blue := color_raw / 1024 % 32
      idx := bg_idx
      visible := true
      force_blend := false }
  else { prev with visible := false }

/-- Modelled from the spec: the visible height (160), the total line count
(228), and the tags of the interrupt and DMA-timing enums used by
`ppu_hdraw` (values from the hardware encoding; the enums live in the
missing `gba` headers). -/
def GBA_SCREEN_HEIGHT : Nat := 160

def GBA_SCREEN_REAL_HEIGHT : Nat := 228

def IRQ_VBLANK : Nat := 0

def IRQ_VCOUNTER : Nat := 2

def DMA_TIMING_VBLANK : Nat := 1

/-- The state read and written by `ppu_hdraw`: the `VCOUNT` register, the
shared frame counter and framebuffer of `shared_data`, the internal PPU
framebuffer, the `DISPSTAT` fields, the frame-skip settings, and the
affine-reload flag.  Calls out of the handler (`core_schedule_irq`,
`mem_schedule_dma_transfers`, `ppu_reload_affine_internal_registers`) are
recorded in the three output lists. -/
structure HdrawState where
  vcount : Nat
  frame_counter : Nat
  shared_framebuffer : Nat → Nat
  ppu_framebuffer : Nat → Nat
  vcount_val : Nat
  vcount_eq : Bool
  vblank : Bool
  hblank : Bool
  vblank_irq : Bool
  vcount_irq : Bool
  enable_frame_skipping : Bool
  frame_skip_counter : Nat
  current_frame_skip_counter : Nat
  skip_current_frame : Bool
  reload_internal_affine_regs : Bool
  scheduled_irqs : List Nat
  scheduled_dmas : List Nat
  affine_reloads : List Nat

/-- The part of `ppu_hdraw` after the `VCOUNT` update: the `DISPSTAT`
status bits, the VBlank IRQ and DMA kicks at line 160, the affine-register
reload, and the VCOUNT IRQ. -/
def ppuHdrawTail (s : HdrawState) : HdrawState :=
  let s :=
    { s with
      vcount_eq := decide (s.vcount = s.vcount_val)
      vblank :=
        decide (GBA_SCREEN_HEIGHT ≤ s.vcount ∧
          s.vcount < GBA_SCREEN_REAL_HEIGHT - 1)
      hblank := false }
  let s :=
    if s.vcount = GBA_SCREEN_HEIGHT then
      let s :=
        if s.vblank_irq then
          { s with scheduled_irqs := s.scheduled_irqs ++ [IRQ_VBLANK] }
        else s
      { s with
        scheduled_dmas := s.scheduled_dmas ++ [DMA_TIMING_VBLANK]
        reload_internal_affine_regs := true }
    else s
  let s :=
    if s.reload_internal_affine_regs then
      { s with
        affine_reloads := s.affine_reloads ++ [0, 1]
        reload_internal_affine_regs := false }
    else s
  if s.vcount_eq && s.vcount_irq then
    { s with scheduled_irqs := s.scheduled_irqs ++ [IRQ_VCOUNTER] }
  else s

/-- `ppu_hdraw`: increment `VCOUNT` (a 16-bit IO register), wrap at 228
(bumping the shared frame counter and running the frame-skip logic), copy
the internal framebuffer to the shared one when the new `VCOUNT` is 160,
then run the status/IRQ/DMA tail. -/
def ppuHdraw (s : HdrawState) : HdrawState :=
  let v := (s.vcount + 1) % 2 ^ 16
  if GBA_SCREEN_REAL_HEIGHT ≤ v then
    let s :=
      { s with
        vcount := 0
        frame_counter := (s.frame_counter + 1) % 2 ^ 32 }
    let s :=
      if s.enable_frame_skipping ∧ 0 < s.frame_skip_counter then
        let c := (s.current_frame_skip_counter + 1) % s.frame_skip_counter
        { s with
          current_frame_skip_counter := c
          skip_current_frame := decide (c ≠ 0) }
      else { s with skip_current_frame := false }
    ppuHdrawTail s
  else if v = GBA_SCREEN_HEIGHT then
    ppuHdrawTail
      { s with vcount := v, shared_framebuffer := s.ppu_framebuffer }
  else ppuHdrawTail { s with vcount := v }

/-- Little-endian 16-bit encoding (`uint16_t` memcpy). -/
def u16le (n : Nat) : List Nat :=
  [n % 256, n / 256 % 256]

/-- Little-endian 32-bit encoding (`uint32_t` memcpy). -/
def u32le (n : Nat) : List Nat :=
  [n % 256, n / 256 % 256, n / 65536 % 256, n / 16777216 % 256]

/-- Little-endian 64-bit encoding (`uint64_t` / `size_t` memcpy). -/
def u64le (n : Nat) : List Nat :=
  [n % 256, n / 256 % 256, n / 65536 % 256, n / 16777216 % 256,
    n / 2 ^ 32 % 256, n / 2 ^ 40 % 256, n / 2 ^ 48 % 256, n / 2 ^ 56 % 256]

/-- Little-endian value of a byte list. -/
def leVal (l : List Nat) : Nat :=
  l.foldr (fun b acc => b + 256 * acc) 0

/-- `quicksave_read`: take exactly `n` bytes off the front of a byte list,
returning the bytes and the remainder, or `none` when fewer than `n` bytes
remain. -/
def takeExact : Nat → List Nat → Option (List Nat × List Nat)
  | 0, l => some ([], l)
  | _ + 1, [] => none
  | n + 1, a :: l =>
      match takeExact n l with
      | none => none
      | some (xs, rest) => some (a :: xs, rest)

/-- The run scan of `quicksave_encode_rle`: the number of additional bytes
equal to `v` at the front of the list, capped so that the total run length
(this count plus one) never exceeds `UINT16_MAX = 65535`. -/
def takeRun (v : Nat) : List Nat → Nat → Nat
  | [], _ => 0
  | x :: xs, cap =>
      if cap = 0 then 0
      else if x = v then 1 + takeRun v xs (cap - 1) else 0

/-- The run list produced by `quicksave_encode_rle` (fuel-driven; the fuel
is the list length, which bounds the number of runs). -/
def rleRuns : Nat → List Nat → List (Nat × Nat)
  | _, [] => []
  | 0, _ => []
  | fuel + 1, v :: rest =>
      let n := takeRun v rest 65534
      (n + 1, v) :: rleRuns fuel (rest.drop n)

/-- `quicksave_encode_rle`: a sequence of `{ run_len : u16, value : u8 }`
records. -/
def rleBytes (data : List Nat) : List Nat :=
  ((rleRuns data.length data).map (fun p => u16le p.1 ++ [p.2])).flatten

/-- The `struct quicksave_region_header` bytes:
`{ decoded_size : u32, encoding : u8, reserved : u8[3] }`. -/
def regionHeaderBytes (dsize enc : Nat) : List Nat :=
  u32le dsize ++ [enc, 0, 0, 0]

/-- `quicksave_write_region_payload`: RLE-encode the region, keep the RLE
form only when it is non-empty and strictly smaller than the raw data,
otherwise store the raw bytes. -/
def regionPayload (data : List Nat) : List Nat :=
  let r := if data.length ≠ 0 then rleBytes data else []
  if 0 < r.length ∧ r.length < data.length then
    regionHeaderBytes data.length 1 ++ r
  else
    regionHeaderBytes data.length 0 ++ data

/-- The byte sizes of the opaque structs serialized by `quicksave`
(`sizeof(gba->core)` and friends, plus the five memory-region sizes).
These values are compile-time constants of the missing `gba` headers, so
the embedding is parametric in them; the spec fixes the region sizes
(EWRAM 256 KiB, IWRAM 32 KiB, VRAM 96 KiB, palette 1 KiB, OAM 1 KiB). -/
structure ChunkSizes where
  coreLen : Nat
  ioLen : Nat
  ppuLen : Nat
  gpioLen : Nat
  apuLen : Nat
  metaLen : Nat
  eventLen : Nat
  ewramLen : Nat
  iwramLen : Nat
  vramLen : Nat
  palramLen : Nat
  oamLen : Nat

/-- The serialized slice of `struct gba`: the opaque core/io/ppu/gpio/apu
blobs, the scheduler counters and event array, the memory metadata blob
(`struct quicksave_memory_meta`), the five memory regions, the shared
backup-storage buffer with its dirty flag (`backupData = none` models a
`NULL` buffer), and the ROM fingerprint (`rom.size` and the `rom_code`
word that `quicksave_rom_code` reads at offset `0xAC`). -/
structure SavedState where
  core : List Nat
  io : List Nat
  ppu : List Nat
  gpio : List Nat
  apu : List Nat
  schedCycles : Nat
  schedNextEvent : Nat
  events : List (List Nat)
  memMeta : List Nat
  ewram : List Nat
  iwram : List Nat
  vram : List Nat
  palram : List Nat
  oam : List Nat
  backupData : Option (List Nat)
  backupDirty : Bool
  romSize : Nat
  romCode : Nat
deriving DecidableEq, Repr

/-- The magic `"HSQS"`. -/
def magicBytes : List Nat := [0x48, 0x53, 0x51, 0x53]

/-- The fixed `struct quicksave_header` written by `quicksave`. -/
def quicksaveHeaderBytes (st : SavedState) : List Nat :=
  magicBytes ++ u32le 2 ++ u32le (min st.romSize (2 ^ 32 - 1)) ++
    u32le st.romCode

/-- The two `quicksave_write` calls of `quicksave_write_chunk` /
`quicksave_write_chunk_buffer`: the 8-byte chunk header, then the payload
when it is non-empty. -/
def chunkWrites (kind : Nat) (payload : List Nat) : List (List Nat) :=
  (u32le kind ++ u32le payload.length) ::
    (if payload.length = 0 then [] else [payload])

/-- The `struct quicksave_backup_snapshot` bytes: `size_t size` (8 bytes),
`bool dirty` (1 byte) and 7 bytes of x86-64 struct padding, written as
zero here (the C `memcpy` copies whatever the padding holds; `quickload`
never reads it). -/
def backupSnapshotBytes (n : Nat) (dirty : Bool) : List Nat :=
  u64le n ++ [if dirty then 1 else 0] ++ List.replicate 7 0

/-- The sequence of `quicksave_write` calls that `quicksave` performs on
its output buffer, in order: header, the five fixed chunks, the scheduler
snapshot, the event array (only when `events_len` is non-zero and the
event pointer is non-`NULL`), the memory metadata, the five region chunks
and the optional backup-storage chunk. -/
def quicksaveWrites (st : SavedState) : List (List Nat) :=
  [quicksaveHeaderBytes st] ++
    chunkWrites 1 st.core ++
    chunkWrites 2 st.io ++
    chunkWrites 3 st.ppu ++
    chunkWrites 4 st.gpio ++
    chunkWrites 5 st.apu ++
    chunkWrites 6
      (u64le st.schedCycles ++ u64le st.schedNextEvent ++
        u64le st.events.length) ++
    (if st.events.length = 0 then [] else chunkWrites 7 st.events.flatten) ++
    chunkWrites 8 st.memMeta ++
    chunkWrites 9 (regionPayload st.ewram) ++
    chunkWrites 10 (regionPayload st.iwram) ++
    chunkWrites 11 (regionPayload st.vram) ++
    chunkWrites 12 (regionPayload st.palram) ++
    chunkWrites 13 (regionPayload st.oam) ++
    (match st.backupData with
      | none => []
      | some d =>
          if d.length = 0 then []
          else
            chunkWrites 14
              (backupSnapshotBytes d.length st.backupDirty ++
                regionPayload d))

/-- The bytes `quicksave` writes (`buffer.index` bytes of `buffer.data`). -/
def quicksaveBytes (st : SavedState) : List Nat :=
  (quicksaveWrites st).flatten

/-- `PAGE_ALIGN` from `quicksave.c`:
`(size + PAGE_SIZE) & ~PAGE_MASK` with a 4096-byte page. -/
def pageAlign (x : Nat) : Nat :=
  4096 * ((x + 4096) / 4096)

/-- The `*size` output of `quicksave`: the C code returns `buffer.size`,
the allocation size maintained by `quicksave_buffer_reserve`, which grows
to `PAGE_ALIGN(index + length)` whenever a write would overflow the
current allocation. -/
def quicksaveReportedSize (st : SavedState) : Nat :=
  ((quicksaveWrites st).foldl
    (fun p w =>
      let need := p.1 + w.length
      (need, if p.2 < need then pageAlign need else p.2))
    (0, 0)).2

/-- The working state of the `quickload` chunk loop: the partially updated
emulator state, the `seen_*` flags, the local `sched` snapshot and the
`events_tmp` array. -/
structure LoadAcc where
  st : SavedState
  seenCore : Bool
  seenIo : Bool
  seenPpu : Bool
  seenGpio : Bool
  seenApu : Bool
  seenSched : Bool
  seenMeta : Bool
  seenEwram : Bool
  seenIwram : Bool
  seenVram : Bool
  seenPalram : Bool
  seenOam : Bool
  seenBackup : Bool
  schedCyclesAcc : Nat
  schedNextAcc : Nat
  schedLenAcc : Nat
  eventsTmpLen : Nat
  eventsTmpData : List (List Nat)

/-- Split a byte list into consecutive groups of `k` bytes (the
`scheduler_event` array layout). -/
def chunksOfAux : Nat → Nat → List Nat → List (List Nat)
  | 0, _, _ => []
  | _ + 1, _, [] => []
  | fuel + 1, k, l => l.take k :: chunksOfAux fuel k (l.drop k)

/-- Split a byte list into consecutive groups of `k` bytes. -/
def chunksOf (k : Nat) (l : List Nat) : List (List Nat) :=
  chunksOfAux l.length k l

/-- The RLE branch of `quicksave_read_region`: read
`{ run_len : u16, value : u8 }` records until `need` output bytes are
produced.  `off` is the read offset relative to the chunk payload start and
`limit` the declared chunk size; the C loop refuses to read a record whose
3 bytes would cross `chunk_end` and rejects a run longer than the
remaining output. -/
def rleRead : Nat → List Nat → Nat → Nat → Nat → Option (List Nat)
  | _, _, _, _, 0 => some []
  | 0, _, _, _, _ => none
  | fuel + 1, rem, off, limit, need =>
      if off + 3 > limit then none
      else
        match rem with
        | b0 :: b1 :: v :: rest =>
            let run := b0 + 256 * b1
            if run > need then none
            else
              match rleRead fuel rest (off + 3) limit (need - run) with
              | none => none
              | some tail => some (List.replicate run v ++ tail)
        | _ => none

/-- `quicksave_read_region` for a non-`NULL` destination of size `dstLen`
(and, for `dstLen = 0`, also the `NULL` destination the backup path uses):
read the region header, check the decoded size, then read the payload
according to its encoding.  `bytes` is the remaining buffer from offset
`start` of the chunk payload; `limit` is the declared chunk size. -/
def regionRead (bytes : List Nat) (start limit dstLen : Nat) :
    Option (List Nat) :=
  match takeExact 8 bytes with
  | none => none
  | some (h, rest) =>
      let decoded := leVal (h.take 4)
      let enc := h.getD 4 0
      if decoded ≠ dstLen then none
      else if enc = 0 then
        if start + 8 + dstLen > limit then none
        else
          match takeExact dstLen rest with
          | none => none
          | some (d, _) => some d
      else if enc = 1 then rleRead (limit + dstLen + 1) rest (start + 8) limit dstLen
      else none

/-- The `QS_CHUNK_SCHED_EVENTS` arm of `quickload`: check divisibility by
`sizeof(struct scheduler_event)`, set `events_tmp_len`, and read the event
array when it is non-empty. -/
def parseEvents (sz : ChunkSizes) (size : Nat) (bytes : List Nat)
    (acc : LoadAcc) : Option LoadAcc :=
  if size % sz.eventLen ≠ 0 then none
  else
    let n := size / sz.eventLen
    if n = 0 then some { acc with eventsTmpLen := 0 }
    else
      match takeExact size bytes with
      | none => none
      | some (d, _) =>
          some
            { acc with
              eventsTmpLen := n
              eventsTmpData := chunksOf sz.eventLen d }

/-- The `QS_CHUNK_BACKUP_STORAGE` arm of `quickload`: read the backup
snapshot (size and dirty flag), then the region payload; a zero size frees
the backup buffer. -/
def parseBackup (sz : ChunkSizes) (size : Nat) (bytes : List Nat)
    (acc : LoadAcc) : Option LoadAcc :=
  if size < 16 then none
  else
    match takeExact 16 bytes with
    | none => none
    | some (mb, rest) =>
        let bsize := leVal (mb.take 8)
        let dirty : Bool := decide (mb.getD 8 0 ≠ 0)
        if bsize ≠ 0 then
          (regionRead rest 16 size bsize).map fun d =>
            { acc with
              st :=
                { acc.st with backupData := some d, backupDirty := dirty }
              seenBackup := true }
        else
          (regionRead rest 16 size 0).map fun _ =>
            { acc with
              st := { acc.st with backupData := none, backupDirty := dirty }
              seenBackup := true }

/-- One arm of the `switch (chunk.kind)` of `quickload`: fixed-size blob
chunks check the declared size against the struct size and read the
payload. -/
def readBlob (expected size : Nat) (bytes : List Nat) : Option (List Nat) :=
  if size ≠ expected then none
  else
    match takeExact expected bytes with
    | none => none
    | some (d, _) => some d

/-- The `switch (chunk.kind)` body of `quickload` for one chunk.  `bytes`
is the buffer content following the 8-byte chunk header (the payload plus
everything after the chunk; the region header reads of the C code are
bounded by the whole buffer, not by `chunk_end`).  Unknown kinds are
skipped.  Returns `none` for `goto error`. -/
def parseChunk (sz : ChunkSizes) (kind size : Nat) (bytes : List Nat)
    (acc : LoadAcc) : Option LoadAcc :=
  if kind = 1 then
    (readBlob sz.coreLen size bytes).map fun d =>
      { acc with st := { acc.st with core := d }, seenCore := true }
  else if kind = 2 then
    (readBlob sz.ioLen size bytes).map fun d =>
      { acc with st := { acc.st with io := d }, seenIo := true }
  else if kind = 3 then
    (readBlob sz.ppuLen size bytes).map fun d =>
      { acc with st := { acc.st with ppu := d }, seenPpu := true }
  else if kind = 4 then
    (readBlob sz.gpioLen size bytes).map fun d =>
      { acc with st := { acc.st with gpio := d }, seenGpio := true }
  else if kind = 5 then
    (readBlob sz.apuLen size bytes).map fun d =>
      { acc with st := { acc.st with apu := d }, seenApu := true }
  else if kind = 6 then
    (readBlob 24 size bytes).map fun d =>
      { acc with
        schedCyclesAcc := leVal (d.take 8)
        schedNextAcc := leVal ((d.drop 8).take 8)
        schedLenAcc := leVal (d.drop 16)
        seenSched := true }
  else if kind = 7 then parseEvents sz size bytes acc
  else if kind = 8 then
    (readBlob sz.metaLen size bytes).map fun d =>
      { acc with st := { acc.st with memMeta := d }, seenMeta := true }
  else if kind = 9 then
    (regionRead bytes 0 size sz.ewramLen).map fun d =>
      { acc with st := { acc.st with ewram := d }, seenEwram := true }
  else if kind = 10 then
    (regionRead bytes 0 size sz.iwramLen).map fun d =>
      { acc with st := { acc.st with iwram := d }, seenIwram := true }
  else if kind = 11 then
    (regionRead bytes 0 size sz.vramLen).map fun d =>
      { acc with st := { acc.st with vram := d }, seenVram := true }
  else if kind = 12 then
    (regionRead bytes 0 size sz.palramLen).map fun d =>
      { acc with st := { acc.st with palram := d }, seenPalram := true }
  else if kind = 13 then
    (regionRead bytes 0 size sz.oamLen).map fun d =>
      { acc with st := { acc.st with oam := d }, seenOam := true }
  else if kind = 14 then parseBackup sz size bytes acc
  else some acc

/-- The chunk loop of `quickload`
(`while (buffer.index < buffer.size) { ... }`): read the 8-byte chunk
header, refuse a chunk whose declared size runs past the buffer, dispatch
on the kind, and continue at `chunk_end`.  The fuel is a modelling
artefact; every iteration consumes at least 8 bytes, so any fuel of at
least `length / 8 + 1` is enough and `quickload` passes `length + 1`. -/
def parseChunks (sz : ChunkSizes) : Nat → List Nat → LoadAcc → Option LoadAcc
  | _, [], acc => some acc
  | 0, _ :: _, _ => none
  | fuel + 1, rem, acc =>
      match takeExact 4 rem with
      | none => none
      | some (kb, rem1) =>
          match takeExact 4 rem1 with
          | none => none
          | some (sb, rem2) =>
              let kind := leVal kb
              let size := leVal sb
              match takeExact size rem2 with
              | none => none
              | some (_, rest) =>
                  match parseChunk sz kind size rem2 acc with
                  | none => none
                  | some acc2 => parseChunks sz fuel rest acc2

/-- The result of `quickload`: success with the restored state, failure
(`return true`), or the fall-back to the legacy version-1 loader
`quickload_v1` (taken when the magic is absent; its body reads the raw
`struct gba` fields and is not modelled here — no claim depends on it). -/
inductive LoadResult where
  | ok (st : SavedState)
  | err
  | v1
deriving DecidableEq, Repr

/-- The accumulator at the top of the chunk loop: the current emulator
state with the scheduler event array already freed
(`gba->scheduler.events = NULL; gba->scheduler.events_size = 0;`), no
chunk seen, and a zeroed local `sched` snapshot. -/
def initAcc (cur : SavedState) : LoadAcc :=
  { st := { cur with events := [] }
    seenCore := false
    seenIo := false
    seenPpu := false
    seenGpio := false
    seenApu := false
    seenSched := false
    seenMeta := false
    seenEwram := false
    seenIwram := false
    seenVram := false
    seenPalram := false
    seenOam := false
    seenBackup := false
    schedCyclesAcc := 0
    schedNextAcc := 0
    schedLenAcc := 0
    eventsTmpLen := 0
    eventsTmpData := [] }

/-- The tail of `quickload` after the chunk loop: the mandatory-chunk
check, the `sched.events_len != events_tmp_len` check, the scheduler
commit, and the clearing of the backup dirty flag when no backup chunk was
seen. -/
def finalizeLoad (acc : LoadAcc) : LoadResult :=
  if acc.seenCore ∧ acc.seenIo ∧ acc.seenPpu ∧ acc.seenGpio ∧ acc.seenApu ∧
      acc.seenSched ∧ acc.seenMeta ∧ acc.seenEwram ∧ acc.seenIwram ∧
      acc.seenVram ∧ acc.seenPalram ∧ acc.seenOam then
    if acc.schedLenAcc = acc.eventsTmpLen then
      LoadResult.ok
        { acc.st with
          schedCycles := acc.schedCyclesAcc
          schedNextEvent := acc.schedNextAcc
          events := if acc.schedLenAcc = 0 then [] else acc.eventsTmpData
          backupDirty := if acc.seenBackup then acc.st.backupDirty else false }
    else LoadResult.err
  else LoadResult.err

/-- `quickload`: reject short buffers and foreign magic to the legacy v1
path, check the version and the ROM fingerprint, run the chunk loop, and
finish with the mandatory-chunk and scheduler checks. -/
def quickload (sz : ChunkSizes) (cur : SavedState) (buf : List Nat) :
    LoadResult :=
  match buf with
  | m0 :: m1 :: m2 :: m3 :: a0 :: a1 :: a2 :: a3 :: b0 :: b1 :: b2 :: b3 ::
      c0 :: c1 :: c2 :: c3 :: rest =>
    if [m0, m1, m2, m3] = magicBytes then
      let version := a0 + 256 * a1 + 65536 * a2 + 16777216 * a3
      let hRomSize := b0 + 256 * b1 + 65536 * b2 + 16777216 * b3
      let hRomCode := c0 + 256 * c1 + 65536 * c2 + 16777216 * c3
      if version ≠ 2 then LoadResult.err
      else if hRomSize ≠ min cur.romSize (2 ^ 32 - 1) ∨
          hRomCode ≠ cur.romCode then
        LoadResult.err
      else
        match parseChunks sz (buf.length + 1) rest (initAcc cur) with
        | none => LoadResult.err
        | some acc => finalizeLoad acc
    else LoadResult.v1
  | _ => LoadResult.v1

/-- A one-byte-per-struct instantiation of the opaque struct sizes, used to
evaluate the save/load pipeline on a small concrete state. -/
def qsSizes1 : ChunkSizes :=
  { coreLen := 1, ioLen := 1, ppuLen := 1, gpioLen := 1, apuLen := 1
    metaLen := 1, eventLen := 1, ewramLen := 1, iwramLen := 1, vramLen := 1
    palramLen := 1, oamLen := 1 }

/-- A power-on-like state for `qsSizes1`: zeroed blobs and regions, no
scheduler events, no backup buffer, no ROM. -/
def qsState0 : SavedState :=
  { core := [0], io := [0], ppu := [0], gpio := [0], apu := [0]
    schedCycles := 0, schedNextEvent := 0, events := [], memMeta := [0]
    ewram := [0], iwram := [0], vram := [0], palram := [0], oam := [0]
    backupData := none, backupDirty := false, romSize := 0, romCode := 0 }

/-- A chunk stream, as a list of `(kind, payload)` pairs, encoded the way
`quicksave_write_chunk` lays chunks out (8-byte header, then payload),
right-associated so one chunk plus the rest of the stream is exposed. -/
def encodeChunkList : List (Nat × List Nat) → List Nat
  | [] => []
  | (k, p) :: cs => u32le k ++ (u32le p.length ++ (p ++ encodeChunkList cs))

/-- The effect of the `quickload` chunk loop on an encoded chunk stream
followed by the suffix `suf`: dispatch the chunks one after the other
(each `parseChunk` sees the bytes from its payload to the end of the
buffer, as the C code does). -/
def runChunkList (sz : ChunkSizes) (suf : List Nat) :
    List (Nat × List Nat) → LoadAcc → Option LoadAcc
  | [], acc => some acc
  | (k, p) :: cs, acc =>
      match parseChunk sz (leVal (u32le k)) p.length
          (p ++ (encodeChunkList cs ++ suf)) acc with
      | none => none
      | some acc2 => runChunkList sz suf cs acc2

/-- The chunk stream `quicksave` emits for `qsState0` under `qsSizes1`:
the five fixed blobs, the scheduler snapshot, the memory metadata and the
five region chunks (no event array — the scheduler is empty — and no
backup chunk). -/
def qsChunks1 : List (Nat × List Nat) :=
  [(1, [0]), (2, [0]), (3, [0]), (4, [0]), (5, [0]),
    (6, u64le 0 ++ u64le 0 ++ u64le 0), (8, [0]),
    (9, regionPayload [0]), (10, regionPayload [0]),
    (11, regionPayload [0]), (12, regionPayload [0]),
    (13, regionPayload [0])]

/-- The accumulator after the `quickload` chunk loop consumed
`qsChunks1` starting from `initAcc qsState0`. -/
def qsAccFull : LoadAcc :=
  { st := qsState0
    seenCore := true
    seenIo := true
    seenPpu := true
    seenGpio := true
    seenApu := true
    seenSched := true
    seenMeta := true
    seenEwram := true
    seenIwram := true
    seenVram := true
    seenPalram := true
    seenOam := true
    seenBackup := false
    schedCyclesAcc := 0
    schedNextAcc := 0
    schedLenAcc := 0
    eventsTmpLen := 0
    eventsTmpData := [] }

/-- A `WAITCNT` value with every field zero (the reset value). -/
def waitcntZero : Waitcnt :=
  { sram := 0
    ws0_nonseq := 0
    ws0_seq := false
    ws1_nonseq := 0
    ws1_seq := false
    ws2_nonseq := 0
    ws2_seq := false }

/-- The wait-state tables after `mem_update_waitstates` ran on the reset
`WAITCNT` (16-bit cartridge costs 5 non-sequential / 3 sequential). -/
def tables16Zero : AccessType → Nat → Nat :=
  memUpdateWaitstates16 waitcntZero accessTime16Init

/-- The 32-bit companion of `tables16Zero`. -/
def tables32Zero : AccessType → Nat → Nat :=
  memUpdateWaitstates32 tables16Zero accessTime32Init

/-- A bus state sitting right on the 128 KiB boundary `0x08020000` with a
warm prefetch buffer: the previous sequential fetches left
`tail = 0x08020000` and one completed half-word in the queue. -/
def busBoundaryHit : MemBusState :=
  { pbuffer :=
      { enabled := true
        head := 0x08020002
        tail := 0x08020000
        countdown := 2
        reload := 3
        insn_len := 2
        size := 1
        capacity := 8 }
    gamepak_bus_in_use := true
    thumb := true
    is_dma_running := false
    t16 := tables16Zero
    t32 := tables32Zero }

/-- A bus state with a prefetch hit whose fetch is still in flight:
`tail = 0x08000004` and `size = 0`. -/
def busHitInFlight : MemBusState :=
  { pbuffer :=
      { enabled := true
        head := 0x08000004
        tail := 0x08000004
        countdown := 2
        reload := 3
        insn_len := 2
        size := 0
        capacity := 8 }
    gamepak_bus_in_use := true
    thumb := true
    is_dma_running := false
    t16 := tables16Zero
    t32 := tables32Zero }

/-- Zero-filled palette/VRAM/OAM stores in BG mode 0. -/
def zeroVideoMem : VideoMem :=
  { palram := fun _ => 0
    vram := fun _ => 0
    oam := fun _ => 0
    bg_mode := 0 }

/-- IO invariants for a plain alpha blend: `BLDALPHA` coefficients 16/16,
`BLDCNT` mode `BLEND_ALPHA` with BG0 enabled as top (bit 0) and BG1
enabled as bottom (bit 9), no windows. -/
def blendIoEx : MergeIo :=
  { bldalpha_top_coef := 16
    bldalpha_bot_coef := 16
    bldy_coef := 0
    bldcnt_raw := 513
    bldcnt_mode := BLEND_ALPHA
    win0 := false
    win1 := false
    winobj := false }

/-- A white, visible top pixel tagged as BG0. -/
def topWhiteEx : RichColor :=
  { red := 31, green := 31, blue := 31, idx := 0, visible := true
    force_blend := false }

/-- A black, visible bottom pixel tagged as BG1. -/
def botBlackEx : RichColor :=
  { red := 0, green := 0, blue := 0, idx := 1, visible := true
    force_blend := false }

/-- A backdrop-coloured result pixel. -/
def resBackdropEx : RichColor :=
  { red := 9, green := 10, blue := 11, idx := 5, visible := true
    force_blend := false }

/-- An invisible top-layer pixel (as the text background renderer leaves
behind for palette index 0). -/
def topInvisibleEx : RichColor :=
  { red := 1, green := 2, blue := 3, idx := 0, visible := false
    force_blend := false }

/-- A PPU state one line before VBlank: `VCOUNT = 159`, shared frame
counter 7, distinct shared and internal framebuffers. -/
def hdrawAt159 : HdrawState :=
  { vcount := 159
    frame_counter := 7
    shared_framebuffer := fun _ => 0
    ppu_framebuffer := fun _ => 1
    vcount_val := 0
    vcount_eq := false
    vblank := false
    hblank := true
    vblank_irq := false
    vcount_irq := false
    enable_frame_skipping := false
    frame_skip_counter := 0
    current_frame_skip_counter := 0
    skip_current_frame := false
    reload_internal_affine_regs := false
    scheduled_irqs := []
    scheduled_dmas := []
    affine_reloads := [] }

/-- A region chunk whose payload uses the RAW (`encoding = 0`) form:
the 8-byte region header followed by the raw bytes. -/
def rawRegionChunk (kind : Nat) (data : List Nat) : Nat × List Nat :=
  (kind, regionHeaderBytes data.length 0 ++ data)

/-- A well-formed version-2 chunk stream carrying all twelve mandatory
chunks: the five fixed blobs, a scheduler snapshot whose `events_len`
field is `n`, an event-array chunk with payload `events`, the memory
metadata and the five RAW-encoded region chunks. -/
def stdChunksRaw (st : SavedState) (n : Nat) (events : List Nat) :
    List (Nat × List Nat) :=
  [(1, st.core), (2, st.io), (3, st.ppu), (4, st.gpio), (5, st.apu),
    (6, u64le st.schedCycles ++ (u64le st.schedNextEvent ++ u64le n)),
    (7, events), (8, st.memMeta),
    rawRegionChunk 9 st.ewram, rawRegionChunk 10 st.iwram,
    rawRegionChunk 11 st.vram, rawRegionChunk 12 st.palram,
    rawRegionChunk 13 st.oam]

/-- C7: after any write to the wait-state control register,
`mem_update_waitstates` leaves the tables so that, for every cartridge ROM
window, the 16-bit non-sequential cost is `1 + {4,3,2,8}[ws_nonseq]`, the
16-bit sequential cost is `1 + (1 if the window's fast_seq bit is set,
else 2, 4 or 8 for windows 0, 1, 2)`, the SRAM cost is
`1 + {4,3,2,8}[sram_ws]` for both access types, and every 32-bit cost
equals 16-bit nonseq + 16-bit seq for NONSEQ and twice the 16-bit seq cost
for SEQ. -/
theorem c7_waitstate_tables (w : Waitcnt) (t16 t32 : AccessType → Nat → Nat) :
    (∀ r, CART_0_REGION_1 ≤ r → r ≤ CART_2_REGION_2 →
      memUpdateWaitstates16 w t16 AccessType.nonSequential r =
        1 + gamepakNonseqWaitstates (wsNonseqFor w r) ∧
      memUpdateWaitstates16 w t16 AccessType.sequential r =
        1 + (if wsSeqFor w r then 1 else slowSeqFor r)) ∧
    (memUpdateWaitstates16 w t16 AccessType.nonSequential SRAM_REGION =
        1 + gamepakNonseqWaitstates w.sram ∧
      memUpdateWaitstates16 w t16 AccessType.sequential SRAM_REGION =
        1 + gamepakNonseqWaitstates w.sram) ∧
    (∀ r, CART_0_REGION_1 ≤ r → r ≤ SRAM_REGION →
      memUpdateWaitstates32 (memUpdateWaitstates16 w t16) t32
          AccessType.nonSequential r =
        memUpdateWaitstates16 w t16 AccessType.nonSequential r +
          memUpdateWaitstates16 w t16 AccessType.sequential r ∧
      memUpdateWaitstates32 (memUpdateWaitstates16 w t16) t32
          AccessType.sequential r =
        2 * memUpdateWaitstates16 w t16 AccessType.sequential r) := by
  refine ⟨?_, ?_, ?_⟩
  · intro r h1 h2
    simp only [CART_0_REGION_1, CART_2_REGION_2] at h1 h2
    interval_cases r <;>
      simp [memUpdateWaitstates16, wsNonseqFor, wsSeqFor, slowSeqFor,
        CART_0_REGION_1, CART_0_REGION_2, CART_1_REGION_1, CART_1_REGION_2,
        CART_2_REGION_1, CART_2_REGION_2, SRAM_REGION]
  · simp [memUpdateWaitstates16, CART_0_REGION_1, CART_0_REGION_2,
      CART_1_REGION_1, CART_1_REGION_2, CART_2_REGION_1, CART_2_REGION_2,
      SRAM_REGION]
  · intro r h1 h2
    simp only [CART_0_REGION_1, SRAM_REGION] at h1 h2
    constructor <;>
      simp [memUpdateWaitstates32, CART_0_REGION_1, SRAM_REGION, h1, h2]

/-- Witness for `c7_waitstate_tables` at the reset `WAITCNT` and the static
initializer tables, window 0 and the SRAM region. -/
theorem c7_waitstate_tables_witness :
    (tables16Zero AccessType.nonSequential 8 =
        1 + gamepakNonseqWaitstates (wsNonseqFor waitcntZero 8) ∧
      tables16Zero AccessType.sequential 8 =
        1 + (if wsSeqFor waitcntZero 8 then 1 else slowSeqFor 8)) ∧
    (tables32Zero AccessType.nonSequential 8 =
      tables16Zero AccessType.nonSequential 8 +
        tables16Zero AccessType.sequential 8) :=
  ⟨(c7_waitstate_tables waitcntZero accessTime16Init accessTime32Init).1 8
      (by decide) (by decide),
    ((c7_waitstate_tables waitcntZero accessTime16Init accessTime32Init).2.2 8
        (by decide) (by decide)).1⟩

/-- C5 counterexample: a sequential access at the 128 KiB boundary
`0x08020000` that hits a warm prefetch buffer is charged 1 cycle, not the
non-sequential cost 5 that the claim promises for every boundary access. -/
theorem c5_counterexample :
    (memAccess busBoundaryHit 0x08020000 2 AccessType.sequential).1 = 1 ∧
      busBoundaryHit.t16 AccessType.nonSequential 8 = 5 ∧ (1 : Nat) ≠ 5 := by
  refine ⟨?_, by decide, by decide⟩
  rfl

/-- C5 (amended): for an access whose aligned address sits in the cartridge
window on a 128 KiB boundary, `mem_access` computes its cost from the
non-sequential table even when called with `SEQUENTIAL`, and charges
exactly that cost whenever the prefetch protocol is not entered (prefetch
buffer disabled or DMA running) or the buffer misses
(`pbuffer.tail ≠ addr`); only a prefetch-buffer hit is charged
differently. -/
theorem c5_boundary_forces_nonseq_cost (s : MemBusState) (addr size : Nat)
    (ty : AccessType)
    (hlo : CART_REGION_START ≤ alignAddrPow2 addr size / 2 ^ 24)
    (hhi : alignAddrPow2 addr size / 2 ^ 24 ≤ CART_REGION_END)
    (hb : alignAddrPow2 addr size % 0x20000 = 0)
    (hmiss : s.pbuffer.enabled = false ∨ s.is_dma_running = true ∨
      s.pbuffer.tail ≠ alignAddrPow2 addr size) :
    (memAccess s addr size ty).1 =
      (if size ≤ 2 then
        s.t16 AccessType.nonSequential (alignAddrPow2 addr size / 2 ^ 24 % 16)
      else
        s.t32 AccessType.nonSequential
          (alignAddrPow2 addr size / 2 ^ 24 % 16)) := by
  unfold memAccess
  simp only [hb, hlo, hhi, and_self, decide_eq_true_eq, if_true, true_and]
  rcases hmiss with h | h | h
  · simp [h, memPrefetchBufferAccessFast]
  · simp [h, memPrefetchBufferAccessFast]
  · by_cases he : s.pbuffer.enabled
    · by_cases hd : s.is_dma_running
      · simp [he, hd]
      · simp [he, hd, memPrefetchBufferAccessFast, h]
    · simp [he]

/-- Witness for `c5_boundary_forces_nonseq_cost`: the boundary state with
the prefetch buffer pointing elsewhere (`tail = 0x08021000`). -/
theorem c5_boundary_forces_nonseq_cost_witness :
    (memAccess
        { busBoundaryHit with
          pbuffer := { busBoundaryHit.pbuffer with tail := 0x08021000 } }
        0x08020000 2 AccessType.sequential).1 =
      (if (2 : Nat) ≤ 2 then
        { busBoundaryHit with
          pbuffer :=
            { busBoundaryHit.pbuffer with
              tail := 0x08021000 } }.t16 AccessType.nonSequential
          (alignAddrPow2 0x08020000 2 / 2 ^ 24 % 16)
      else
        { busBoundaryHit with
          pbuffer :=
            { busBoundaryHit.pbuffer with
              tail := 0x08021000 } }.t32 AccessType.nonSequential
          (alignAddrPow2 0x08020000 2 / 2 ^ 24 % 16)) :=
  c5_boundary_forces_nonseq_cost _ 0x08020000 2 AccessType.sequential
    (by decide) (by decide) (by decide) (Or.inr (Or.inr (by decide)))

/-- C6: evaluating the prefetch protocol at the failing input — a hit
(`tail == addr`) with `size == 0`.  The code charges `countdown` cycles and
advances `tail` by `insn_len` as the claim says, but then executes
`p->size--` on the unsigned field, leaving `size = 2^32 - 1` (and the stale
`countdown`) instead of the zeroed buffer the claim requires. -/
theorem c6_hit_in_flight_underflows_size :
    (memAccess busHitInFlight 0x08000004 2 AccessType.sequential).1 = 2 ∧
      (memAccess busHitInFlight 0x08000004 2
            AccessType.sequential).2.pbuffer.tail = 0x08000006 ∧
      (memAccess busHitInFlight 0x08000004 2
            AccessType.sequential).2.pbuffer.size = 2 ^ 32 - 1 ∧
      (memAccess busHitInFlight 0x08000004 2
            AccessType.sequential).2.pbuffer.countdown = 2 := by
  refine ⟨rfl, rfl, ?_, rfl⟩
  rfl

/-- C3: evaluating the byte-write dispatch at the failing input of the
claim — writing byte `0x3F` to palette RAM at `0x05000100` over a zeroed
palette.  The `PALRAM_REGION` case of `template_write(uint8_t, ...)`
performs a plain one-byte `mem_region_write`, so the half-word at
`0x05000100` reads back `0x003F`, not the `0x3F3F` the claim requires. -/
theorem c3_palette_byte_write_single :
    memRead16Palram (memWrite8Video zeroVideoMem 0x05000100 0x3F)
        0x05000100 = 0x3F ∧
      (memWrite8Video zeroVideoMem 0x05000100 0x3F).palram 0x101 = 0 ∧
      (0x3F : Nat) ≠ 0x3F3F := by
  refine ⟨?_, ?_, by decide⟩ <;> rfl

/-- C4: evaluating the byte-write dispatch at the failing input — an 8-bit
write to OAM at `0x07000000`.  The `OAM_REGION` case of
`template_write(uint8_t, ...)` stores the byte
(`mem_region_write` of one byte), so OAM changes, while the claim says
8-bit OAM writes have no effect.  The second conjunct checks the OBJ-VRAM
half of the claim, which the code does honour: in BG mode 0 a byte write
at `0x06010000` leaves the VRAM store untouched. -/
theorem c4_oam_byte_write_stores :
    (memWrite8Video zeroVideoMem 0x07000000 0xAB).oam 0 = 0xAB ∧
      (0xAB : Nat) ≠ 0 ∧
      memWrite8Video zeroVideoMem 0x06010000 0x55 = zeroVideoMem := by
  refine ⟨?_, by decide, ?_⟩ <;> rfl

/-- The clamp `(x > 16) ? 16 : x` equals `min x 16`. -/
theorem clamp16_eq_min (x : Nat) : (if x > 16 then 16 else x) = min x 16 := by
  split <;> omega

/-- C8 counterexample: with `BLDALPHA` coefficients `eva = evb = 16`, a
white top pixel and a black bottom pixel (both blend-enabled and visible,
mode `BLEND_ALPHA`), the claimed formula gives
`min 31 ((16*31 + 16*0) >> 4) = 31`, but `ppu_merge_layer` outputs channel
0: its fast path computes `top + ((bot - top) * evb >> 4)` and ignores
`eva`. -/
theorem c8_counterexample :
    (mergePixel blendIoEx 0 0 topWhiteEx botBlackEx resBackdropEx).2.red
        = 0 ∧
      min 31
          ((blendIoEx.bldalpha_top_coef * topWhiteEx.red +
              blendIoEx.bldalpha_bot_coef * botBlackEx.red) / 2 ^ 4) = 31 ∧
      (0 : Nat) ≠ 31 := by
  refine ⟨?_, by decide, by decide⟩
  rfl

/-- C8 (amended): in `BLEND_ALPHA` mode with no window enabled, when the
top layer is blend-enabled (or `force_blend` is set) and the bottom pixel
is blend-enabled and visible, every output channel is the `evb`-only
approximation `top.c + (((bot.c - top.c) * evb) >> 4)` with `evb` the
`BLDALPHA` bottom coefficient clamped to at most 16 (`eva` is unused);
otherwise the pixel passes the top colour through.  For channels below 32
the approximation coincides with the claimed
`min(31, (eva*top.c + evb*bot.c) >> 4)` exactly when `eva = 16 - evb`. -/
theorem c8_alpha_blend_uses_only_evb (io : MergeIo) (top_idx win_opts : Nat)
    (topc botc resc : RichColor) (hv : topc.visible = true)
    (hw0 : io.win0 = false) (hw1 : io.win1 = false) (hw2 : io.winobj = false)
    (hmode : io.bldcnt_mode = BLEND_ALPHA) :
    ((io.bldcnt_raw &&& (1 <<< top_idx) ≠ 0 ∨ topc.force_blend = true) →
      (io.bldcnt_raw >>> (8 + botc.idx)) &&& 1 ≠ 0 →
      botc.visible = true →
      mergePixel io top_idx win_opts topc botc resc =
        (topc,
          { red := alphaChan topc.red botc.red (min io.bldalpha_bot_coef 16)
            green :=
              alphaChan topc.green botc.green (min io.bldalpha_bot_coef 16)
            blue := alphaChan topc.blue botc.blue (min io.bldalpha_bot_coef 16)
            idx := top_idx
            visible := true
            force_blend := false })) ∧
    ((io.bldcnt_raw &&& (1 <<< top_idx) = 0 ∧ topc.force_blend = false ∨
        (io.bldcnt_raw >>> (8 + botc.idx)) &&& 1 = 0 ∨
        botc.visible = false) →
      mergePixel io top_idx win_opts topc botc resc = (topc, topc)) ∧
    (∀ t b evb, t < 32 → b < 32 → evb ≤ 16 →
      alphaChan t b evb = min 31 (((16 - evb) * t + evb * b) / 2 ^ 4)) := by
  have hwa : (decide (top_idx ≤ 4) && (io.win0 || io.win1 || io.winobj))
      = false := by
    simp [hw0, hw1, hw2]
  refine ⟨?_, ?_, ?_⟩
  · intro htop hbot hbv
    have h1 : (!topc.visible) = false := by rw [hv]; rfl
    have h3 : (decide ((io.bldcnt_raw >>> (8 + botc.idx)) &&& 1 ≠ 0)) = true :=
      decide_eq_true hbot
    rcases htop with htop | htop
    · have h4 : (decide (io.bldcnt_raw &&& (1 <<< top_idx) ≠ 0)) = true :=
        decide_eq_true htop
      simp only [mergePixel, h1, hwa, h3, h4, hmode, hbv, Bool.false_eq_true,
        false_and, if_false, and_true, not_true, true_or, not_false_iff,
        false_or, or_false, ite_self, BLEND_ALPHA, BLEND_OFF,
        Nat.one_ne_zero, if_neg, ite_false, ite_true, not_not, if_true,
        clamp16_eq_min, Bool.not_eq_true]
    · simp only [mergePixel, h1, hwa, h3, hmode, hbv, htop,
        Bool.false_eq_true, false_and, if_false, and_true, not_true,
        or_true, true_or, not_false_iff, false_or, or_false, ite_self,
        BLEND_ALPHA, BLEND_OFF, Nat.one_ne_zero, if_neg, ite_false,
        ite_true, not_not, if_true, clamp16_eq_min, Bool.not_eq_true]
  · intro hoff
    have h1 : (!topc.visible) = false := by rw [hv]; rfl
    rcases hoff with ⟨htop, hfb⟩ | hbot | hbv
    · have h4 : (decide (io.bldcnt_raw &&& (1 <<< top_idx) ≠ 0)) = false := by
        simp [htop]
      simp [mergePixel, h1, hwa, hmode, h4, hfb, BLEND_ALPHA, BLEND_OFF]
    · have h3 : (decide ((io.bldcnt_raw >>> (8 + botc.idx)) &&& 1 ≠ 0))
          = false := by simp [hbot]
      have htb : io.bldcnt_raw.testBit (8 + botc.idx) = false := by
        unfold Nat.testBit
        rw [Nat.and_comm]
        simp [hbot]
      simp [mergePixel, h1, hwa, hmode, h3, htb, BLEND_ALPHA, BLEND_OFF]
    · simp [mergePixel, h1, hwa, hmode, hbv, BLEND_ALPHA, BLEND_OFF]
  · intro t b evb ht hb hevb
    unfold alphaChan
    rw [Int.fdiv_eq_ediv _ (by norm_num)]
    have hcast : (((16 - evb) * t + evb * b : Nat) : Int) =
        ((b : Int) - t) * evb + 16 * t := by
      have h16 : ((16 - evb : Nat) : Int) = 16 - (evb : Int) := by omega
      push_cast
      rw [h16]
      ring
    have key : (t : Int) + ((b : Int) - t) * evb / 16 =
        (((16 - evb) * t + evb * b : Nat) : Int) / 16 := by
      rw [hcast, Int.add_mul_ediv_left _ _ (by norm_num : (16 : Int) ≠ 0)]
      ring
    rw [key]
    have hdivnat : (((16 - evb) * t + evb * b : Nat) : Int) / 16 =
        ((((16 - evb) * t + evb * b) / 16 : Nat) : Int) := rfl
    rw [hdivnat]
    have hle : ((16 - evb) * t + evb * b) / 16 ≤ 31 := by
      have hb1 : (16 - evb) * t ≤ (16 - evb) * 31 :=
        Nat.mul_le_mul_left _ (by omega)
      have hb2 : evb * b ≤ evb * 31 := Nat.mul_le_mul_left _ (by omega)
      have hb3 : (16 - evb) * 31 + evb * 31 = 496 := by
        have : (16 - evb) * 31 + evb * 31 = ((16 - evb) + evb) * 31 := by ring
        rw [this]
        have : 16 - evb + evb = 16 := by omega
        rw [this]
      have : (16 - evb) * t + evb * b ≤ 496 := by omega
      omega
    rw [Int.emod_eq_of_lt (by positivity) (by exact_mod_cast by omega)]
    rw [Int.toNat_natCast]
    have : min 31 (((16 - evb) * t + evb * b) / 2 ^ 4) =
        ((16 - evb) * t + evb * b) / 16 := by
      rw [show (2 : Nat) ^ 4 = 16 by norm_num]
      omega
    omega

/-- Witness for `c8_alpha_blend_uses_only_evb` at the concrete blend
state. -/
theorem c8_alpha_blend_uses_only_evb_witness :
    mergePixel blendIoEx 0 0 topWhiteEx botBlackEx resBackdropEx =
      (topWhiteEx,
        { red := alphaChan topWhiteEx.red botBlackEx.red
            (min blendIoEx.bldalpha_bot_coef 16)
          green := alphaChan topWhiteEx.green botBlackEx.green
            (min blendIoEx.bldalpha_bot_coef 16)
          blue := alphaChan topWhiteEx.blue botBlackEx.blue
            (min blendIoEx.bldalpha_bot_coef 16)
          idx := 0
          visible := true
          force_blend := false }) :=
  (c8_alpha_blend_uses_only_evb blendIoEx 0 0 topWhiteEx botBlackEx
      resBackdropEx rfl rfl rfl rfl rfl).1
    (Or.inl (by decide)) (by decide) rfl

/-- C9 counterexample: merging a layer whose top pixel is invisible leaves
`result[x]` alone but overwrites `bot[x]` with that invisible entry
(`bot[x] = topc; continue;` in the source), so `bot[x]` does not keep its
previous value as the claim requires. -/
theorem c9_counterexample :
    (mergePixel blendIoEx 0 0 topInvisibleEx botBlackEx resBackdropEx).1 ≠
        botBlackEx ∧
      (mergePixel blendIoEx 0 0 topInvisibleEx botBlackEx resBackdropEx).1 =
        topInvisibleEx := by
  refine ⟨by decide, ?_⟩
  rfl

/-- C9 (amended): for a pixel whose top-layer entry is not visible, the
merge leaves `result[x]` unchanged but writes the invisible top entry into
`bot[x]`; and the text background renderer marks palette-index-0 pixels
invisible by clearing only the `visible` flag of the existing `bg[x]`
entry. -/
theorem c9_invisible_top_pixel (io : MergeIo) (top_idx win_opts : Nat)
    (topc botc resc : RichColor) (h : topc.visible = false) :
    mergePixel io top_idx win_opts topc botc resc = (topc, resc) ∧
      ∀ prev color_raw bg_idx,
        textPixelStore prev 0 color_raw bg_idx =
          { prev with visible := false } := by
  constructor
  · simp [mergePixel, h]
  · intro prev color_raw bg_idx
    simp [textPixelStore]

/-- Witness for `c9_invisible_top_pixel` at the concrete invisible pixel. -/
theorem c9_invisible_top_pixel_witness :
    mergePixel blendIoEx 0 0 topInvisibleEx botBlackEx resBackdropEx =
        (topInvisibleEx, resBackdropEx) ∧
      textPixelStore topWhiteEx 0 0 0 =
        { topWhiteEx with visible := false } :=
  ⟨(c9_invisible_top_pixel blendIoEx 0 0 topInvisibleEx botBlackEx
        resBackdropEx rfl).1,
    (c9_invisible_top_pixel blendIoEx 0 0 topInvisibleEx botBlackEx
        resBackdropEx rfl).2 topWhiteEx 0 0⟩

/-- `ppu_hdraw`'s status/IRQ/DMA tail touches neither the framebuffers nor
the frame counter nor `VCOUNT`. -/
theorem ppuHdrawTail_preserves (s : HdrawState) :
    (ppuHdrawTail s).shared_framebuffer = s.shared_framebuffer ∧
      (ppuHdrawTail s).frame_counter = s.frame_counter ∧
      (ppuHdrawTail s).vcount = s.vcount ∧
      (ppuHdrawTail s).ppu_framebuffer = s.ppu_framebuffer := by
  simp only [ppuHdrawTail]
  by_cases h1 : s.vcount = GBA_SCREEN_HEIGHT <;>
    by_cases h2 : s.vblank_irq = true <;>
    by_cases h3 : s.vcount_irq = true <;>
    by_cases h4 : s.reload_internal_affine_regs = true <;>
    by_cases h5 : decide (s.vcount = s.vcount_val) = true <;>
    simp [h1, h2, h3, h4, h5] <;>
    (try (split <;> simp))

/-- C10 counterexample: on the HDRAW event that takes `VCOUNT` from 159 to
160 the handler does not increment the shared `frame_counter` (the
increment happens on the wrap-to-0 event instead), contradicting the
claim; it also bumps no framebuffer version counter — `ppu_hdraw` contains
no such operation. -/
theorem c10_counterexample :
    (ppuHdraw hdrawAt159).vcount = 160 ∧
      (ppuHdraw hdrawAt159).frame_counter = 7 ∧
      hdrawAt159.frame_counter = 7 ∧ (7 : Nat) ≠ 7 + 1 := by
  refine ⟨?_, ?_, rfl, by decide⟩ <;> rfl

/-- C10 (amended): on the HDRAW event in which `VCOUNT` becomes 160 the
handler copies the internal framebuffer to the shared host region (under
the framebuffer mutex) and leaves the shared `frame_counter` unchanged;
the `frame_counter` is incremented instead on the HDRAW event in which
`VCOUNT` wraps from 227 to 0, and the handler touches no framebuffer
version counter. -/
theorem c10_frame_publication (s : HdrawState) :
    (s.vcount = 159 →
      (ppuHdraw s).vcount = 160 ∧
      (ppuHdraw s).shared_framebuffer = s.ppu_framebuffer ∧
      (ppuHdraw s).frame_counter = s.frame_counter) ∧
    (s.vcount = 227 →
      (ppuHdraw s).vcount = 0 ∧
      (ppuHdraw s).frame_counter = (s.frame_counter + 1) % 2 ^ 32 ∧
      (ppuHdraw s).shared_framebuffer = s.shared_framebuffer) := by
  constructor
  · intro h
    unfold ppuHdraw
    rw [h]
    norm_num [GBA_SCREEN_REAL_HEIGHT, GBA_SCREEN_HEIGHT]
    refine ⟨?_, ?_, ?_⟩
    · rw [(ppuHdrawTail_preserves _).2.2.1]
    · rw [(ppuHdrawTail_preserves _).1]
    · rw [(ppuHdrawTail_preserves _).2.1]
  · intro h
    unfold ppuHdraw
    rw [h]
    norm_num [GBA_SCREEN_REAL_HEIGHT, GBA_SCREEN_HEIGHT]
    refine ⟨?_, ?_, ?_⟩
    · rw [(ppuHdrawTail_preserves _).2.2.1]
      split <;> rfl
    · rw [(ppuHdrawTail_preserves _).2.1]
      split <;> rfl
    · rw [(ppuHdrawTail_preserves _).1]
      split <;> rfl

/-- Witness for `c10_frame_publication` at the concrete states with
`VCOUNT = 159` and `VCOUNT = 227`. -/
theorem c10_frame_publication_witness :
    ((ppuHdraw hdrawAt159).vcount = 160 ∧
      (ppuHdraw hdrawAt159).shared_framebuffer = hdrawAt159.ppu_framebuffer ∧
      (ppuHdraw hdrawAt159).frame_counter = hdrawAt159.frame_counter) ∧
    ((ppuHdraw { hdrawAt159 with vcount := 227 }).vcount = 0 ∧
      (ppuHdraw { hdrawAt159 with vcount := 227 }).frame_counter =
        ({ hdrawAt159 with vcount := 227 } : HdrawState).frame_counter + 1 ∧
      (ppuHdraw { hdrawAt159 with vcount := 227 }).shared_framebuffer =
        ({ hdrawAt159 with vcount := 227 } : HdrawState).shared_framebuffer)
    := by
  refine ⟨(c10_frame_publication hdrawAt159).1 rfl, ?_⟩
  have h := (c10_frame_publication { hdrawAt159 with vcount := 227 }).2 rfl
  exact ⟨h.1, by rw [h.2.1]; rfl, h.2.2⟩

/-- `takeExact` splits a concatenation at the length of its first part. -/
theorem takeExact_append (l1 l2 : List Nat) :
    takeExact l1.length (l1 ++ l2) = some (l1, l2) := by
  induction l1 with
  | nil => rfl
  | cons a l ih => simp [takeExact, ih]

/-- `takeExact` fails on a list shorter than the requested count. -/
theorem takeExact_eq_none (n : Nat) (l : List Nat) (h : l.length < n) :
    takeExact n l = none := by
  induction l generalizing n with
  | nil =>
      cases n with
      | zero => omega
      | succ m => rfl
  | cons a t ih =>
      cases n with
      | zero => omega
      | succ m =>
          have : t.length < m := by simpa using h
          simp [takeExact, ih m this]

/-- Reading back a 32-bit little-endian encoding. -/
theorem leVal_u32le (n : Nat) (h : n < 2 ^ 32) : leVal (u32le n) = n := by
  simp [leVal, u32le]
  omega

/-- One iteration of the `quickload` chunk loop on a well-formed encoded
chunk: read the header, dispatch the payload, continue after it. -/
theorem parseChunks_step (sz : ChunkSizes) (fuel k : Nat) (p rest : List Nat)
    (acc : LoadAcc) (hp : p.length < 2 ^ 32) :
    parseChunks sz (fuel + 1) (u32le k ++ (u32le p.length ++ (p ++ rest)))
        acc =
      match parseChunk sz (leVal (u32le k)) p.length (p ++ rest) acc with
      | none => none
      | some acc2 => parseChunks sz fuel rest acc2 := by
  have h1 : takeExact 4 (u32le k ++ (u32le p.length ++ (p ++ rest))) =
      some (u32le k, u32le p.length ++ (p ++ rest)) := by
    have := takeExact_append (u32le k) (u32le p.length ++ (p ++ rest))
    simpa [u32le] using this
  have h2 : takeExact 4 (u32le p.length ++ (p ++ rest)) =
      some (u32le p.length, p ++ rest) := by
    have := takeExact_append (u32le p.length) (p ++ rest)
    simpa [u32le] using this
  conv =>
    lhs
    rw [show u32le k ++ (u32le p.length ++ (p ++ rest)) =
      k % 256 :: (k / 256 % 256 :: (k / 65536 % 256 :: (k / 16777216 % 256 ::
        (u32le p.length ++ (p ++ rest))))) from by simp [u32le]]
  rw [parseChunks]
  rw [show (k % 256 :: (k / 256 % 256 :: (k / 65536 % 256 ::
      (k / 16777216 % 256 :: (u32le p.length ++ (p ++ rest)))))) =
    u32le k ++ (u32le p.length ++ (p ++ rest)) from by simp [u32le]]
  rw [h1]
  simp only [h2, leVal_u32le p.length hp, takeExact_append p rest]
  simp

/-- The chunk loop rejects a buffer that is a non-empty run of zero bytes
whose length is not a multiple of 8: it consumes zero-kind/zero-size
(unknown, skipped) chunk headers eight bytes at a time and then fails to
read a full chunk header from the remainder. -/
theorem parseChunks_zeros (sz : ChunkSizes) :
    ∀ fuel n acc, n % 8 ≠ 0 → n ≤ 8 * fuel →
      parseChunks sz fuel (List.replicate n 0) acc = none := by
  intro fuel
  induction fuel with
  | zero =>
      intro n acc h8 hle
      omega
  | succ f ih =>
      intro n acc h8 hle
      by_cases hsmall : n < 8
      · have hne : 0 < n := by omega
        interval_cases n <;>
          simp [parseChunks, takeExact, List.replicate]
      · have hsplit : List.replicate n 0 =
            List.replicate 8 0 ++ List.replicate (n - 8) 0 := by
          rw [← List.replicate_add]
          congr 1
          omega
        rw [hsplit]
        rw [show List.replicate 8 0 ++ List.replicate (n - 8) 0 =
          u32le 0 ++ (u32le 0 ++ ([] ++ List.replicate (n - 8) 0)) from by
            simp [u32le, List.replicate]]
        have hstep := parseChunks_step sz f 0 ([] : List Nat)
          (List.replicate (n - 8) 0) acc (by simp)
        simp only [List.length_nil] at hstep
        rw [hstep]
        have hskip : parseChunk sz (leVal (u32le 0)) 0
            ([] ++ List.replicate (n - 8) 0) acc = some acc := by
          simp [parseChunk, leVal, u32le]
        simp only [hskip]
        exact ih (n - 8) acc (by omega) (by omega)

/-- Running the chunk loop over an encoded chunk stream dispatches the
chunks one by one and continues with the suffix. -/
theorem parseChunks_encode (sz : ChunkSizes) (cs : List (Nat × List Nat)) :
    ∀ fuel suf acc, (∀ c ∈ cs, (c.2).length < 2 ^ 32) → cs.length ≤ fuel →
      parseChunks sz fuel (encodeChunkList cs ++ suf) acc =
        match runChunkList sz suf cs acc with
        | none => none
        | some acc2 => parseChunks sz (fuel - cs.length) suf acc2 := by
  induction cs with
  | nil =>
      intro fuel suf acc hwf hfuel
      simp [encodeChunkList, runChunkList]
  | cons c cs ih =>
      intro fuel suf acc hwf hfuel
      obtain ⟨k, p⟩ := c
      cases fuel with
      | zero => simp at hfuel
      | succ f =>
          have hp : p.length < 2 ^ 32 := hwf (k, p) (List.mem_cons_self _ _)
          rw [show encodeChunkList ((k, p) :: cs) ++ suf =
            u32le k ++ (u32le p.length ++ (p ++ (encodeChunkList cs ++ suf)))
            from by simp [encodeChunkList, List.append_assoc]]
          rw [parseChunks_step sz f k p (encodeChunkList cs ++ suf) acc hp]
          simp only [runChunkList]
          cases hpc : parseChunk sz (leVal (u32le k)) p.length
              (p ++ (encodeChunkList cs ++ suf)) acc with
          | none => simp
          | some acc2 =>
              simp only []
              rw [ih f suf acc2 (fun c hc => hwf c (List.mem_cons_of_mem _ hc))
                (by simpa using hfuel)]
              have : f - cs.length = (f + 1) - (cs.length + 1) := by omega
              rw [this]
              rfl

/-- `quickload` on a buffer that starts with the header `quicksave` wrote
for the same state: the magic, version and ROM-fingerprint checks pass and
the chunk loop runs on the remainder. -/
theorem quickload_on_header (sz : ChunkSizes) (cur : SavedState)
    (rest : List Nat) (hc : cur.romCode < 2 ^ 32) :
    quickload sz cur (quicksaveHeaderBytes cur ++ rest) =
      match parseChunks sz (rest.length + 17) rest (initAcc cur) with
      | none => LoadResult.err
      | some acc => finalizeLoad acc := by
  rw [show quicksaveHeaderBytes cur ++ rest =
    0x48 :: 0x53 :: 0x51 :: 0x53 :: 2 :: 0 :: 0 :: 0 ::
      (min cur.romSize (2 ^ 32 - 1) % 256) ::
      (min cur.romSize (2 ^ 32 - 1) / 256 % 256) ::
      (min cur.romSize (2 ^ 32 - 1) / 65536 % 256) ::
      (min cur.romSize (2 ^ 32 - 1) / 16777216 % 256) ::
      (cur.romCode % 256) :: (cur.romCode / 256 % 256) ::
      (cur.romCode / 65536 % 256) :: (cur.romCode / 16777216 % 256) :: rest
    from by simp [quicksaveHeaderBytes, magicBytes, u32le]]
  rw [quickload]
  have hsz : min cur.romSize (2 ^ 32 - 1) % 256 +
      256 * (min cur.romSize (2 ^ 32 - 1) / 256 % 256) +
      65536 * (min cur.romSize (2 ^ 32 - 1) / 65536 % 256) +
      16777216 * (min cur.romSize (2 ^ 32 - 1) / 16777216 % 256) =
      min cur.romSize (2 ^ 32 - 1) := by
    have : min cur.romSize (2 ^ 32 - 1) < 2 ^ 32 := by omega
    omega
  have hco : cur.romCode % 256 + 256 * (cur.romCode / 256 % 256) +
      65536 * (cur.romCode / 65536 % 256) +
      16777216 * (cur.romCode / 16777216 % 256) = cur.romCode := by
    omega
  rw [if_pos (show ([0x48, 0x53, 0x51, 0x53] : List Nat) = magicBytes
    from rfl)]
  simp only []
  rw [if_neg (by norm_num)]
  rw [if_neg (by rw [hsz, hco]; simp)]
  have hlen : (0x48 :: 0x53 :: 0x51 :: 0x53 :: 2 :: 0 :: 0 :: 0 ::
      (min cur.romSize (2 ^ 32 - 1) % 256) ::
      (min cur.romSize (2 ^ 32 - 1) / 256 % 256) ::
      (min cur.romSize (2 ^ 32 - 1) / 65536 % 256) ::
      (min cur.romSize (2 ^ 32 - 1) / 16777216 % 256) ::
      (cur.romCode % 256) :: (cur.romCode / 256 % 256) ::
      (cur.romCode / 65536 % 256) :: (cur.romCode / 16777216 % 256) ::
      rest).length + 1 = rest.length + 17 := by
    simp
  rw [hlen]


set_option maxRecDepth 10000 in
/-- C1: evaluating the save/load pipeline at the failing input.  For the
concrete power-on state `qsState0` (opaque struct sizes instantiated at one
byte), `quicksave` writes 187 bytes but reports `*size = buffer.size`, the
page-aligned allocation size 4096, so the saved buffer carries a
4096 - 187 = 3909 byte unwritten tail.  `quickload` of that buffer (tail
zero-filled; 3909 is not a multiple of 8) parses the tail as chunk headers
and fails, so `load(save(S))` returns failure instead of restoring `S`.
The last conjunct shows the round trip restores the state exactly on just
the bytes written: the failure is the size report. -/
theorem c1_roundtrip_fails_on_reported_size :
    quickload qsSizes1 qsState0
        (quicksaveBytes qsState0 ++
          List.replicate
            (quicksaveReportedSize qsState0 -
              (quicksaveBytes qsState0).length) 0) = LoadResult.err ∧
      quicksaveReportedSize qsState0 = 4096 ∧
      (quicksaveBytes qsState0).length = 187 ∧
      quickload qsSizes1 qsState0 (quicksaveBytes qsState0) =
        LoadResult.ok qsState0 := by
  refine ⟨?_, by rfl, by rfl, by rfl⟩
  rw [show quicksaveReportedSize qsState0 -
    (quicksaveBytes qsState0).length = 3909 from rfl]
  rw [show quicksaveBytes qsState0 =
    quicksaveHeaderBytes qsState0 ++ encodeChunkList qsChunks1 from rfl]
  rw [List.append_assoc]
  rw [quickload_on_header qsSizes1 qsState0 _ (by norm_num [qsState0])]
  have e1 : (encodeChunkList qsChunks1).length = 171 := by rfl
  rw [List.length_append, e1, List.length_replicate]
  rw [show (171 + 3909 + 17 : Nat) = 4097 from rfl]
  rw [parseChunks_encode qsSizes1 qsChunks1 4097 (List.replicate 3909 0)
    (initAcc qsState0) (by decide) (by decide)]
  rw [show runChunkList qsSizes1 (List.replicate 3909 0) qsChunks1
    (initAcc qsState0) = some qsAccFull from rfl]
  simp only []
  rw [show (4097 - qsChunks1.length : Nat) = 4085 from by rfl]
  rw [parseChunks_zeros qsSizes1 4085 3909 qsAccFull (by norm_num)
    (by norm_num)]

/-- Reading back a 32-bit little-endian encoding truncates modulo 2^32. -/
theorem leVal_u32le_mod (n : Nat) : leVal (u32le n) = n % 2 ^ 32 := by
  simp [leVal, u32le]
  omega

/-- Reading back a 64-bit little-endian encoding of a value below 2^64. -/
theorem leVal_u64le (n : Nat) (h : n < 2 ^ 64) : leVal (u64le n) = n := by
  simp [leVal, u64le]
  omega

/-- An encoded chunk stream is at least eight bytes per chunk. -/
theorem encodeChunkList_length_ge (cs : List (Nat × List Nat)) :
    8 * cs.length ≤ (encodeChunkList cs).length := by
  induction cs with
  | nil => simp [encodeChunkList]
  | cons c cs ih =>
      obtain ⟨k, p⟩ := c
      simp only [encodeChunkList, List.length_append, List.length_cons,
        u32le]
      simp only [List.length_cons, List.length_nil]
      omega

/-- `parseChunk` on an unknown chunk kind is a no-op. -/
theorem parseChunk_unknown (sz : ChunkSizes) (kind size : Nat)
    (bytes : List Nat) (acc : LoadAcc) (h1 : kind ≠ 1) (h2 : kind ≠ 2)
    (h3 : kind ≠ 3) (h4 : kind ≠ 4) (h5 : kind ≠ 5) (h6 : kind ≠ 6)
    (h7 : kind ≠ 7) (h8 : kind ≠ 8) (h9 : kind ≠ 9) (h10 : kind ≠ 10)
    (h11 : kind ≠ 11) (h12 : kind ≠ 12) (h13 : kind ≠ 13)
    (h14 : kind ≠ 14) :
    parseChunk sz kind size bytes acc = some acc := by
  unfold parseChunk
  simp [h1, h2, h3, h4, h5, h6, h7, h8, h9, h10, h11, h12, h13, h14]

/-- `quickload` on any buffer laid out as magic/version/rom_size/rom_code
header followed by `rest`: the version and ROM-fingerprint checks read the
32-bit header words (truncated modulo 2^32) and gate the chunk loop. -/
theorem quickload_header_general (sz : ChunkSizes) (cur : SavedState)
    (v rS rC : Nat) (rest : List Nat) :
    quickload sz cur
        (magicBytes ++ (u32le v ++ (u32le rS ++ (u32le rC ++ rest)))) =
      if v % 2 ^ 32 ≠ 2 then LoadResult.err
      else if rS % 2 ^ 32 ≠ min cur.romSize (2 ^ 32 - 1) ∨
          rC % 2 ^ 32 ≠ cur.romCode then LoadResult.err
      else
        match parseChunks sz (rest.length + 17) rest (initAcc cur) with
        | none => LoadResult.err
        | some acc => finalizeLoad acc := by
  rw [show magicBytes ++ (u32le v ++ (u32le rS ++ (u32le rC ++ rest))) =
    0x48 :: 0x53 :: 0x51 :: 0x53 :: (v % 256) :: (v / 256 % 256) ::
      (v / 65536 % 256) :: (v / 16777216 % 256) ::
      (rS % 256) :: (rS / 256 % 256) :: (rS / 65536 % 256) ::
      (rS / 16777216 % 256) :: (rC % 256) :: (rC / 256 % 256) ::
      (rC / 65536 % 256) :: (rC / 16777216 % 256) :: rest
    from by simp [magicBytes, u32le]]
  rw [quickload]
  rw [if_pos (show ([0x48, 0x53, 0x51, 0x53] : List Nat) = magicBytes
    from rfl)]
  simp only []
  rw [show v % 256 + 256 * (v / 256 % 256) + 65536 * (v / 65536 % 256) +
      16777216 * (v / 16777216 % 256) = v % 2 ^ 32 from by omega]
  rw [show rS % 256 + 256 * (rS / 256 % 256) + 65536 * (rS / 65536 % 256) +
      16777216 * (rS / 16777216 % 256) = rS % 2 ^ 32 from by omega]
  rw [show rC % 256 + 256 * (rC / 256 % 256) + 65536 * (rC / 65536 % 256) +
      16777216 * (rC / 16777216 % 256) = rC % 2 ^ 32 from by omega]
  rw [show (0x48 :: 0x53 :: 0x51 :: 0x53 :: (v % 256) :: (v / 256 % 256) ::
      (v / 65536 % 256) :: (v / 16777216 % 256) ::
      (rS % 256) :: (rS / 256 % 256) :: (rS / 65536 % 256) ::
      (rS / 16777216 % 256) :: (rC % 256) :: (rC / 256 % 256) ::
      (rC / 65536 % 256) :: (rC / 16777216 % 256) :: rest).length + 1 =
    rest.length + 17 from by simp]

/-- A successful `parseEvents` only rewrites the `events_tmp` fields. -/
theorem parseEvents_shape (sz : ChunkSizes) (size : Nat) (bytes : List Nat)
    (acc acc2 : LoadAcc) (h : parseEvents sz size bytes acc = some acc2) :
    ∃ n d, acc2 = { acc with eventsTmpLen := n, eventsTmpData := d } := by
  unfold parseEvents at h
  split_ifs at h
  simp only [] at h
  split_ifs at h
  · injection h with h2
    exact ⟨0, acc.eventsTmpData, h2.symm⟩
  · split at h
    · contradiction
    · injection h with h2
      exact ⟨_, _, h2.symm⟩

/-- A successful `parseBackup` only rewrites the backup fields and the
`seen_backup` flag. -/
theorem parseBackup_shape (sz : ChunkSizes) (size : Nat) (bytes : List Nat)
    (acc acc2 : LoadAcc) (h : parseBackup sz size bytes acc = some acc2) :
    ∃ bd dy, acc2 =
      { acc with
        st := { acc.st with backupData := bd, backupDirty := dy }
        seenBackup := true } := by
  unfold parseBackup at h
  split_ifs at h
  split at h
  · contradiction
  · simp only [] at h
    split_ifs at h
    · rcases Option.map_eq_some'.mp h with ⟨d, hd, heq2⟩
      exact ⟨some d, _, heq2.symm⟩
    · rcases Option.map_eq_some'.mp h with ⟨d, hd, heq2⟩
      exact ⟨none, _, heq2.symm⟩

/-- A successful `parseChunk` changes the `seen` flag of a mandatory chunk
kind only when the chunk has that kind. -/
theorem parseChunk_flags (sz : ChunkSizes) (kind size : Nat)
    (bytes : List Nat) (acc acc2 : LoadAcc)
    (h : parseChunk sz kind size bytes acc = some acc2) :
    (kind ≠ 1 → acc2.seenCore = acc.seenCore) ∧
    (kind ≠ 2 → acc2.seenIo = acc.seenIo) ∧
    (kind ≠ 3 → acc2.seenPpu = acc.seenPpu) ∧
    (kind ≠ 4 → acc2.seenGpio = acc.seenGpio) ∧
    (kind ≠ 5 → acc2.seenApu = acc.seenApu) ∧
    (kind ≠ 6 → acc2.seenSched = acc.seenSched) ∧
    (kind ≠ 8 → acc2.seenMeta = acc.seenMeta) ∧
    (kind ≠ 9 → acc2.seenEwram = acc.seenEwram) ∧
    (kind ≠ 10 → acc2.seenIwram = acc.seenIwram) ∧
    (kind ≠ 11 → acc2.seenVram = acc.seenVram) ∧
    (kind ≠ 12 → acc2.seenPalram = acc.seenPalram) ∧
    (kind ≠ 13 → acc2.seenOam = acc.seenOam) := by
  unfold parseChunk at h
  by_cases k1 : kind = 1
  · rw [if_pos k1] at h
    rcases Option.map_eq_some'.mp h with ⟨d, hd, heq⟩
    rw [← heq]
    refine ⟨?_, ?_, ?_, ?_, ?_, ?_, ?_, ?_, ?_, ?_, ?_, ?_⟩ <;> intro hk <;>
      first
        | rfl
        | (exact absurd (by assumption) hk)
  rw [if_neg k1] at h
  by_cases k2 : kind = 2
  · rw [if_pos k2] at h
    rcases Option.map_eq_some'.mp h with ⟨d, hd, heq⟩
    rw [← heq]
    refine ⟨?_, ?_, ?_, ?_, ?_, ?_, ?_, ?_, ?_, ?_, ?_, ?_⟩ <;> intro hk <;>
      first
        | rfl
        | (exact absurd (by assumption) hk)
  rw [if_neg k2] at h
  by_cases k3 : kind = 3
  · rw [if_pos k3] at h
    rcases Option.map_eq_some'.mp h with ⟨d, hd, heq⟩
    rw [← heq]
    refine ⟨?_, ?_, ?_, ?_, ?_, ?_, ?_, ?_, ?_, ?_, ?_, ?_⟩ <;> intro hk <;>
      first
        | rfl
        | (exact absurd (by assumption) hk)
  rw [if_neg k3] at h
  by_cases k4 : kind = 4
  · rw [if_pos k4] at h
    rcases Option.map_eq_some'.mp h with ⟨d, hd, heq⟩
    rw [← heq]
    refine ⟨?_, ?_, ?_, ?_, ?_, ?_, ?_, ?_, ?_, ?_, ?_, ?_⟩ <;> intro hk <;>
      first
        | rfl
        | (exact absurd (by assumption) hk)
  rw [if_neg k4] at h
  by_cases k5 : kind = 5
  · rw [if_pos k5] at h
    rcases Option.map_eq_some'.mp h with ⟨d, hd, heq⟩
    rw [← heq]
    refine ⟨?_, ?_, ?_, ?_, ?_, ?_, ?_, ?_, ?_, ?_, ?_, ?_⟩ <;> intro hk <;>
      first
        | rfl
        | (exact absurd (by assumption) hk)
  rw [if_neg k5] at h
  by_cases k6 : kind = 6
  · rw [if_pos k6] at h
    rcases Option.map_eq_some'.mp h with ⟨d, hd, heq⟩
    rw [← heq]
    refine ⟨?_, ?_, ?_, ?_, ?_, ?_, ?_, ?_, ?_, ?_, ?_, ?_⟩ <;> intro hk <;>
      first
        | rfl
        | (exact absurd (by assumption) hk)
  rw [if_neg k6] at h
  by_cases k7 : kind = 7
  · rw [if_pos k7] at h
    rcases parseEvents_shape _ _ _ _ _ h with ⟨n, d, rfl⟩
    refine ⟨?_, ?_, ?_, ?_, ?_, ?_, ?_, ?_, ?_, ?_, ?_, ?_⟩ <;> intro hk <;>
      first
        | rfl
        | (exact absurd (by assumption) hk)
  rw [if_neg k7] at h
  by_cases k8 : kind = 8
  · rw [if_pos k8] at h
    rcases Option.map_eq_some'.mp h with ⟨d, hd, heq⟩
    rw [← heq]
    refine ⟨?_, ?_, ?_, ?_, ?_, ?_, ?_, ?_, ?_, ?_, ?_, ?_⟩ <;> intro hk <;>
      first
        | rfl
        | (exact absurd (by assumption) hk)
  rw [if_neg k8] at h
  by_cases k9 : kind = 9
  · rw [if_pos k9] at h
    rcases Option.map_eq_some'.mp h with ⟨d, hd, heq⟩
    rw [← heq]
    refine ⟨?_, ?_, ?_, ?_, ?_, ?_, ?_, ?_, ?_, ?_, ?_, ?_⟩ <;> intro hk <;>
      first
        | rfl
        | (exact absurd (by assumption) hk)
  rw [if_neg k9] at h
  by_cases k10 : kind = 10
  · rw [if_pos k10] at h
    rcases Option.map_eq_some'.mp h with ⟨d, hd, heq⟩
    rw [← heq]
    refine ⟨?_, ?_, ?_, ?_, ?_, ?_, ?_, ?_, ?_, ?_, ?_, ?_⟩ <;> intro hk <;>
      first
        | rfl
        | (exact absurd (by assumption) hk)
  rw [if_neg k10] at h
  by_cases k11 : kind = 11
  · rw [if_pos k11] at h
    rcases Option.map_eq_some'.mp h with ⟨d, hd, heq⟩
    rw [← heq]
    refine ⟨?_, ?_, ?_, ?_, ?_, ?_, ?_, ?_, ?_, ?_, ?_, ?_⟩ <;> intro hk <;>
      first
        | rfl
        | (exact absurd (by assumption) hk)
  rw [if_neg k11] at h
  by_cases k12 : kind = 12
  · rw [if_pos k12] at h
    rcases Option.map_eq_some'.mp h with ⟨d, hd, heq⟩
    rw [← heq]
    refine ⟨?_, ?_, ?_, ?_, ?_, ?_, ?_, ?_, ?_, ?_, ?_, ?_⟩ <;> intro hk <;>
      first
        | rfl
        | (exact absurd (by assumption) hk)
  rw [if_neg k12] at h
  by_cases k13 : kind = 13
  · rw [if_pos k13] at h
    rcases Option.map_eq_some'.mp h with ⟨d, hd, heq⟩
    rw [← heq]
    refine ⟨?_, ?_, ?_, ?_, ?_, ?_, ?_, ?_, ?_, ?_, ?_, ?_⟩ <;> intro hk <;>
      first
        | rfl
        | (exact absurd (by assumption) hk)
  rw [if_neg k13] at h
  by_cases k14 : kind = 14
  · rw [if_pos k14] at h
    rcases parseBackup_shape _ _ _ _ _ h with ⟨bd, dy, rfl⟩
    refine ⟨?_, ?_, ?_, ?_, ?_, ?_, ?_, ?_, ?_, ?_, ?_, ?_⟩ <;> intro hk <;>
      first
        | rfl
        | (exact absurd (by assumption) hk)
  rw [if_neg k14] at h
  injection h with h2
  rw [← h2]
  refine ⟨?_, ?_, ?_, ?_, ?_, ?_, ?_, ?_, ?_, ?_, ?_, ?_⟩ <;> intro hk <;> rfl
  

/-- `readBlob` succeeds on a payload of the expected size. -/
theorem readBlob_append (e : Nat) (p rest : List Nat) (h : p.length = e) :
    readBlob e p.length (p ++ rest) = some p := by
  unfold readBlob
  rw [if_neg (by simp [h]), ← h, takeExact_append]

/-- `regionRead` decodes a RAW region payload. -/
theorem regionRead_raw (data rest : List Nat) (h : data.length < 2 ^ 32) :
    regionRead ((regionHeaderBytes data.length 0 ++ data) ++ rest) 0
      (8 + data.length) data.length = some data := by
  unfold regionRead
  rw [show (regionHeaderBytes data.length 0 ++ data) ++ rest =
    regionHeaderBytes data.length 0 ++ (data ++ rest) from by
      simp [List.append_assoc]]
  rw [show takeExact 8 (regionHeaderBytes data.length 0 ++ (data ++ rest)) =
    some (regionHeaderBytes data.length 0, data ++ rest) from by
      have := takeExact_append (regionHeaderBytes data.length 0) (data ++ rest)
      simpa [regionHeaderBytes, u32le] using this]
  simp only []
  rw [show leVal ((regionHeaderBytes data.length 0).take 4) = data.length
    from by
      simp [regionHeaderBytes, u32le, leVal]
      omega]
  rw [if_neg (by simp)]
  rw [show (regionHeaderBytes data.length 0).getD 4 0 = 0 from by
    simp [regionHeaderBytes, u32le]]
  rw [if_pos rfl]
  rw [if_neg (by omega)]
  rw [takeExact_append]

/-- `parseEvents` on a non-empty event array of the right granularity. -/
theorem parseEvents_eval (sz : ChunkSizes) (events rest : List Nat)
    (acc : LoadAcc) (hdvd : events.length % sz.eventLen = 0)
    (hne : events.length / sz.eventLen ≠ 0) :
    parseEvents sz events.length (events ++ rest) acc =
      some
        { acc with
          eventsTmpLen := events.length / sz.eventLen
          eventsTmpData := chunksOf sz.eventLen events } := by
  unfold parseEvents
  rw [if_neg (by simp [hdvd])]
  simp only []
  rw [if_neg hne]
  rw [takeExact_append]

/-- The kind-1 arm of `parseChunk` on a well-sized payload. -/
theorem parseChunk_core (sz : ChunkSizes) (p rest : List Nat) (acc : LoadAcc)
    (h : p.length = sz.coreLen) :
    parseChunk sz 1 p.length (p ++ rest) acc =
      some
        { acc with st := { acc.st with core := p }, seenCore := true } := by
  unfold parseChunk
  rw [if_pos rfl]
  rw [readBlob_append _ _ _ h]
  rfl

/-- The kind-2 arm of `parseChunk` on a well-sized payload. -/
theorem parseChunk_io (sz : ChunkSizes) (p rest : List Nat) (acc : LoadAcc)
    (h : p.length = sz.ioLen) :
    parseChunk sz 2 p.length (p ++ rest) acc =
      some
        { acc with st := { acc.st with io := p }, seenIo := true } := by
  unfold parseChunk
  rw [if_neg (by norm_num), if_pos rfl]
  rw [readBlob_append _ _ _ h]
  rfl

/-- The kind-3 arm of `parseChunk` on a well-sized payload. -/
theorem parseChunk_ppu (sz : ChunkSizes) (p rest : List Nat) (acc : LoadAcc)
    (h : p.length = sz.ppuLen) :
    parseChunk sz 3 p.length (p ++ rest) acc =
      some
        { acc with st := { acc.st with ppu := p }, seenPpu := true } := by
  unfold parseChunk
  rw [if_neg (by norm_num), if_neg (by norm_num), if_pos rfl]
  rw [readBlob_append _ _ _ h]
  rfl

/-- The kind-4 arm of `parseChunk` on a well-sized payload. -/
theorem parseChunk_gpio (sz : ChunkSizes) (p rest : List Nat) (acc : LoadAcc)
    (h : p.length = sz.gpioLen) :
    parseChunk sz 4 p.length (p ++ rest) acc =
      some
        { acc with st := { acc.st with gpio := p }, seenGpio := true } := by
  unfold parseChunk
  rw [if_neg (by norm_num), if_neg (by norm_num), if_neg (by norm_num), if_pos rfl]
  rw [readBlob_append _ _ _ h]
  rfl

/-- The kind-5 arm of `parseChunk` on a well-sized payload. -/
theorem parseChunk_apu (sz : ChunkSizes) (p rest : List Nat) (acc : LoadAcc)
    (h : p.length = sz.apuLen) :
    parseChunk sz 5 p.length (p ++ rest) acc =
      some
        { acc with st := { acc.st with apu := p }, seenApu := true } := by
  unfold parseChunk
  rw [if_neg (by norm_num), if_neg (by norm_num), if_neg (by norm_num), if_neg (by norm_num), if_pos rfl]
  rw [readBlob_append _ _ _ h]
  rfl

/-- The kind-8 arm of `parseChunk` on a well-sized payload. -/
theorem parseChunk_meta (sz : ChunkSizes) (p rest : List Nat) (acc : LoadAcc)
    (h : p.length = sz.metaLen) :
    parseChunk sz 8 p.length (p ++ rest) acc =
      some
        { acc with st := { acc.st with memMeta := p }, seenMeta := true } := by
  unfold parseChunk
  rw [if_neg (by norm_num), if_neg (by norm_num), if_neg (by norm_num), if_neg (by norm_num), if_neg (by norm_num), if_neg (by norm_num), if_neg (by norm_num), if_pos rfl]
  rw [readBlob_append _ _ _ h]
  rfl

/-- The kind-9 arm of `parseChunk` on a RAW-encoded region payload of
the expected decoded size. -/
theorem parseChunk_ewram (sz : ChunkSizes) (data rest : List Nat) (acc : LoadAcc)
    (h : sz.ewramLen = data.length) (hlt : data.length < 2 ^ 32) :
    parseChunk sz 9 (8 + data.length)
        ((regionHeaderBytes data.length 0 ++ data) ++ rest) acc =
      some
        { acc with st := { acc.st with ewram := data }, seenEwram := true } := by
  unfold parseChunk
  rw [if_neg (by norm_num), if_neg (by norm_num), if_neg (by norm_num), if_neg (by norm_num), if_neg (by norm_num), if_neg (by norm_num), if_neg (by norm_num), if_neg (by norm_num), if_pos rfl]
  rw [h, regionRead_raw data rest hlt]
  rfl

/-- The kind-10 arm of `parseChunk` on a RAW-encoded region payload of
the expected decoded size. -/
theorem parseChunk_iwram (sz : ChunkSizes) (data rest : List Nat) (acc : LoadAcc)
    (h : sz.iwramLen = data.length) (hlt : data.length < 2 ^ 32) :
    parseChunk sz 10 (8 + data.length)
        ((regionHeaderBytes data.length 0 ++ data) ++ rest) acc =
      some
        { acc with st := { acc.st with iwram := data }, seenIwram := true } := by
  unfold parseChunk
  rw [if_neg (by norm_num), if_neg (by norm_num), if_neg (by norm_num), if_neg (by norm_num), if_neg (by norm_num), if_neg (by norm_num), if_neg (by norm_num), if_neg (by norm_num), if_neg (by norm_num), if_pos rfl]
  rw [h, regionRead_raw data rest hlt]
  rfl

/-- The kind-11 arm of `parseChunk` on a RAW-encoded region payload of
the expected decoded size. -/
theorem parseChunk_vram (sz : ChunkSizes) (data rest : List Nat) (acc : LoadAcc)
    (h : sz.vramLen = data.length) (hlt : data.length < 2 ^ 32) :
    parseChunk sz 11 (8 + data.length)
        ((regionHeaderBytes data.length 0 ++ data) ++ rest) acc =
      some
        { acc with st := { acc.st with vram := data }, seenVram := true } := by
  unfold parseChunk
  rw [if_neg (by norm_num), if_neg (by norm_num), if_neg (by norm_num), if_neg (by norm_num), if_neg (by norm_num), if_neg (by norm_num), if_neg (by norm_num), if_neg (by norm_num), if_neg (by norm_num), if_neg (by norm_num), if_pos rfl]
  rw [h, regionRead_raw data rest hlt]
  rfl

/-- The kind-12 arm of `parseChunk` on a RAW-encoded region payload of
the expected decoded size. -/
theorem parseChunk_palram (sz : ChunkSizes) (data rest : List Nat) (acc : LoadAcc)
    (h : sz.palramLen = data.length) (hlt : data.length < 2 ^ 32) :
    parseChunk sz 12 (8 + data.length)
        ((regionHeaderBytes data.length 0 ++ data) ++ rest) acc =
      some
        { acc with st := { acc.st with palram := data }, seenPalram := true } := by
  unfold parseChunk
  rw [if_neg (by norm_num), if_neg (by norm_num), if_neg (by norm_num), if_neg (by norm_num), if_neg (by norm_num), if_neg (by norm_num), if_neg (by norm_num), if_neg (by norm_num), if_neg (by norm_num), if_neg (by norm_num), if_neg (by norm_num), if_pos rfl]
  rw [h, regionRead_raw data rest hlt]
  rfl

/-- The kind-13 arm of `parseChunk` on a RAW-encoded region payload of
the expected decoded size. -/
theorem parseChunk_oam (sz : ChunkSizes) (data rest : List Nat) (acc : LoadAcc)
    (h : sz.oamLen = data.length) (hlt : data.length < 2 ^ 32) :
    parseChunk sz 13 (8 + data.length)
        ((regionHeaderBytes data.length 0 ++ data) ++ rest) acc =
      some
        { acc with st := { acc.st with oam := data }, seenOam := true } := by
  unfold parseChunk
  rw [if_neg (by norm_num), if_neg (by norm_num), if_neg (by norm_num), if_neg (by norm_num), if_neg (by norm_num), if_neg (by norm_num), if_neg (by norm_num), if_neg (by norm_num), if_neg (by norm_num), if_neg (by norm_num), if_neg (by norm_num), if_neg (by norm_num), if_pos rfl]
  rw [h, regionRead_raw data rest hlt]
  rfl


/-- The kind-6 arm of `parseChunk` on a scheduler snapshot payload. -/
theorem parseChunk_sched (sz : ChunkSizes) (a b c : Nat) (rest : List Nat)
    (acc : LoadAcc) (ha : a < 2 ^ 64) (hb : b < 2 ^ 64) (hc : c < 2 ^ 64) :
    parseChunk sz 6 24 ((u64le a ++ (u64le b ++ u64le c)) ++ rest) acc =
      some
        { acc with
          schedCyclesAcc := a
          schedNextAcc := b
          schedLenAcc := c
          seenSched := true } := by
  have hlen : (u64le a ++ (u64le b ++ u64le c)).length = 24 := by
    simp [u64le]
  have t1 : leVal ((u64le a ++ (u64le b ++ u64le c)).take 8) = a := by
    show leVal (u64le a) = a
    exact leVal_u64le a ha
  have t2 :
      leVal (((u64le a ++ (u64le b ++ u64le c)).drop 8).take 8) = b := by
    show leVal (u64le b) = b
    exact leVal_u64le b hb
  have t3 : leVal ((u64le a ++ (u64le b ++ u64le c)).drop 16) = c := by
    show leVal (u64le c) = c
    exact leVal_u64le c hc
  unfold parseChunk
  rw [if_neg (by norm_num), if_neg (by norm_num), if_neg (by norm_num),
    if_neg (by norm_num), if_neg (by norm_num), if_pos rfl]
  rw [show readBlob 24 24 ((u64le a ++ (u64le b ++ u64le c)) ++ rest) =
      some (u64le a ++ (u64le b ++ u64le c)) from by
    have := readBlob_append (u64le a ++ (u64le b ++ u64le c)).length
      (u64le a ++ (u64le b ++ u64le c)) rest rfl
    rw [hlen] at this
    exact this]
  simp only [Option.map_some', t1, t2, t3]

/-- The kind-7 arm of `parseChunk` on a non-empty event-array payload. -/
theorem parseChunk_events (sz : ChunkSizes) (events rest : List Nat)
    (acc : LoadAcc) (hdvd : events.length % sz.eventLen = 0)
    (hne : events.length / sz.eventLen ≠ 0) :
    parseChunk sz 7 events.length (events ++ rest) acc =
      some
        { acc with
          eventsTmpLen := events.length / sz.eventLen
          eventsTmpData := chunksOf sz.eventLen events } := by
  unfold parseChunk
  rw [if_neg (by norm_num), if_neg (by norm_num), if_neg (by norm_num),
    if_neg (by norm_num), if_neg (by norm_num), if_neg (by norm_num),
    if_pos rfl]
  exact parseEvents_eval sz events rest acc hdvd hne

/-- The chunk loop accepts an empty remainder whatever the fuel. -/
theorem parseChunks_nil (sz : ChunkSizes) (fuel : Nat) (acc : LoadAcc) :
    parseChunks sz fuel [] acc = some acc := by
  cases fuel <;> rfl

/-- Chunks of other kinds preserve a flag: when a flag holds after running
a chunk list, it already held, or some chunk of the list carries the kind
that sets it. -/
theorem runChunkList_flag_mono (f : LoadAcc → Bool) (j : Nat)
    (Hpres : ∀ sz kind size bytes acc acc2,
      parseChunk sz kind size bytes acc = some acc2 → kind ≠ j →
      f acc2 = f acc) :
    ∀ (sz : ChunkSizes) (suf : List Nat) (cs : List (Nat × List Nat))
      (acc acc2 : LoadAcc),
      runChunkList sz suf cs acc = some acc2 → f acc2 = true →
      f acc = true ∨ ∃ c ∈ cs, c.1 % 2 ^ 32 = j := by
  intro sz suf cs
  induction cs with
  | nil =>
      intro acc acc2 h hf
      left
      simp only [runChunkList] at h
      injection h with h
      rw [h]
      exact hf
  | cons c cs ih =>
      intro acc acc2 h hf
      obtain ⟨k, p⟩ := c
      simp only [runChunkList] at h
      cases hpc : parseChunk sz (leVal (u32le k)) p.length
          (p ++ (encodeChunkList cs ++ suf)) acc with
      | none =>
          rw [hpc] at h
          exact absurd h (by simp)
      | some accMid =>
          rw [hpc] at h
          by_cases hkj : leVal (u32le k) = j
          · right
            refine ⟨(k, p), List.mem_cons_self _ _, ?_⟩
            rw [show ((k, p) : Nat × List Nat).1 % 2 ^ 32 =
              leVal (u32le k) from (leVal_u32le_mod k).symm]
            exact hkj
          · have hpres := Hpres sz _ _ _ _ _ hpc hkj
            rcases ih accMid acc2 h hf with hfa | ⟨c, hm, hcj⟩
            · left
              rw [← hpres]
              exact hfa
            · right
              exact ⟨c, List.mem_cons_of_mem _ hm, hcj⟩

/-- A successful `finalizeLoad` implies every mandatory flag was seen and
the scheduler length check passed. -/
theorem finalizeLoad_ok_flags (acc : LoadAcc) (st : SavedState)
    (h : finalizeLoad acc = LoadResult.ok st) :
    (acc.seenCore = true ∧ acc.seenIo = true ∧ acc.seenPpu = true ∧
      acc.seenGpio = true ∧ acc.seenApu = true ∧ acc.seenSched = true ∧
      acc.seenMeta = true ∧ acc.seenEwram = true ∧ acc.seenIwram = true ∧
      acc.seenVram = true ∧ acc.seenPalram = true ∧ acc.seenOam = true) ∧
    acc.schedLenAcc = acc.eventsTmpLen := by
  unfold finalizeLoad at h
  by_cases h1 : acc.seenCore ∧ acc.seenIo ∧ acc.seenPpu ∧ acc.seenGpio ∧
    acc.seenApu ∧ acc.seenSched ∧ acc.seenMeta ∧ acc.seenEwram ∧
    acc.seenIwram ∧ acc.seenVram ∧ acc.seenPalram ∧ acc.seenOam
  · rw [if_pos h1] at h
    by_cases h2 : acc.schedLenAcc = acc.eventsTmpLen
    · exact ⟨h1, h2⟩
    · rw [if_neg h2] at h
      exact absurd h (by simp)
  · rw [if_neg h1] at h
    exact absurd h (by simp)

/-- A successful `quickload` of a header followed by an encoded chunk list
factors through the chunk loop and `finalizeLoad`. -/
theorem quickload_ok_structure (sz : ChunkSizes) (cur : SavedState)
    (cs : List (Nat × List Nat)) (st : SavedState)
    (hc : cur.romCode < 2 ^ 32) (hwf : ∀ c ∈ cs, (c.2).length < 2 ^ 32)
    (h : quickload sz cur (quicksaveHeaderBytes cur ++ encodeChunkList cs) =
      LoadResult.ok st) :
    ∃ acc, runChunkList sz [] cs (initAcc cur) = some acc ∧
      finalizeLoad acc = LoadResult.ok st := by
  rw [quickload_on_header sz cur _ hc] at h
  have hpe := parseChunks_encode sz cs ((encodeChunkList cs).length + 17)
    [] (initAcc cur) hwf
    (by
      have := encodeChunkList_length_ge cs
      omega)
  rw [List.append_nil] at hpe
  cases hrc : runChunkList sz [] cs (initAcc cur) with
  | none =>
      rw [hrc] at hpe
      rw [hpe] at h
      simp at h
  | some acc =>
      rw [hrc] at hpe
      have hpe2 : parseChunks sz ((encodeChunkList cs).length + 17)
          (encodeChunkList cs) (initAcc cur) = some acc := by
        rw [hpe]
        show parseChunks sz
          (((encodeChunkList cs).length + 17) - cs.length) [] acc = some acc
        exact parseChunks_nil _ _ _
      rw [hpe2] at h
      exact ⟨acc, rfl, h⟩

/-- One step of `runChunkList`, with the decoded kind and declared size
rewritten to convenient forms. -/
theorem runChunkList_cons' (sz : ChunkSizes) (suf : List Nat)
    (k k' sizeC : Nat) (p : List Nat) (cs : List (Nat × List Nat))
    (acc acc2 : LoadAcc) (hk : leVal (u32le k) = k')
    (hsz : p.length = sizeC)
    (h : parseChunk sz k' sizeC (p ++ (encodeChunkList cs ++ suf)) acc =
      some acc2) :
    runChunkList sz suf ((k, p) :: cs) acc = runChunkList sz suf cs acc2 := by
  simp only [runChunkList]
  rw [hk, hsz, h]

/-- The chunk loop on the standard well-formed chunk stream: every
mandatory chunk is applied in order and the resulting accumulator carries
the decoded state, the scheduler snapshot and all twelve flags. -/
theorem runChunkList_std (sz : ChunkSizes) (cur st : SavedState) (n : Nat)
    (events suf : List Nat)
    (hcore : st.core.length = sz.coreLen) (hio : st.io.length = sz.ioLen)
    (hppu : st.ppu.length = sz.ppuLen)
    (hgpio : st.gpio.length = sz.gpioLen)
    (hapu : st.apu.length = sz.apuLen)
    (hmeta : st.memMeta.length = sz.metaLen)
    (hcy : st.schedCycles < 2 ^ 64) (hnx : st.schedNextEvent < 2 ^ 64)
    (hn : n < 2 ^ 64) (hdvd : events.length % sz.eventLen = 0)
    (hm : events.length / sz.eventLen ≠ 0)
    (hew : sz.ewramLen = st.ewram.length)
    (hew32 : st.ewram.length < 2 ^ 32)
    (hiw : sz.iwramLen = st.iwram.length)
    (hiw32 : st.iwram.length < 2 ^ 32)
    (hvr : sz.vramLen = st.vram.length) (hvr32 : st.vram.length < 2 ^ 32)
    (hpal : sz.palramLen = st.palram.length)
    (hpal32 : st.palram.length < 2 ^ 32)
    (hoam : sz.oamLen = st.oam.length)
    (hoam32 : st.oam.length < 2 ^ 32) :
    runChunkList sz suf (stdChunksRaw st n events) (initAcc cur) =
      some
        { st :=
            { cur with
              events := []
              core := st.core
              io := st.io
              ppu := st.ppu
              gpio := st.gpio
              apu := st.apu
              memMeta := st.memMeta
              ewram := st.ewram
              iwram := st.iwram
              vram := st.vram
              palram := st.palram
              oam := st.oam }
          seenCore := true
          seenIo := true
          seenPpu := true
          seenGpio := true
          seenApu := true
          seenSched := true
          seenMeta := true
          seenEwram := true
          seenIwram := true
          seenVram := true
          seenPalram := true
          seenOam := true
          seenBackup := false
          schedCyclesAcc := st.schedCycles
          schedNextAcc := st.schedNextEvent
          schedLenAcc := n
          eventsTmpLen := events.length / sz.eventLen
          eventsTmpData := chunksOf sz.eventLen events } := by
  simp only [stdChunksRaw, rawRegionChunk]
  rw [runChunkList_cons' sz suf 1 1 _ st.core _ (initAcc cur) _ (by decide)
    rfl (parseChunk_core sz st.core _ (initAcc cur) hcore)]
  rw [runChunkList_cons' sz suf 2 2 _ st.io _ _ _ (by decide) rfl
    (parseChunk_io sz st.io _ _ hio)]
  rw [runChunkList_cons' sz suf 3 3 _ st.ppu _ _ _ (by decide) rfl
    (parseChunk_ppu sz st.ppu _ _ hppu)]
  rw [runChunkList_cons' sz suf 4 4 _ st.gpio _ _ _ (by decide) rfl
    (parseChunk_gpio sz st.gpio _ _ hgpio)]
  rw [runChunkList_cons' sz suf 5 5 _ st.apu _ _ _ (by decide) rfl
    (parseChunk_apu sz st.apu _ _ hapu)]
  rw [runChunkList_cons' sz suf 6 6 24
    (u64le st.schedCycles ++ (u64le st.schedNextEvent ++ u64le n)) _ _ _
    (by decide) (by simp [u64le])
    (parseChunk_sched sz st.schedCycles st.schedNextEvent n _ _ hcy hnx hn)]
  rw [runChunkList_cons' sz suf 7 7 _ events _ _ _ (by decide) rfl
    (parseChunk_events sz events _ _ hdvd hm)]
  rw [runChunkList_cons' sz suf 8 8 _ st.memMeta _ _ _ (by decide) rfl
    (parseChunk_meta sz st.memMeta _ _ hmeta)]
  rw [runChunkList_cons' sz suf 9 9 (8 + st.ewram.length)
    (regionHeaderBytes st.ewram.length 0 ++ st.ewram) _ _ _ (by decide)
    (by simp [regionHeaderBytes, u32le] <;> omega)
    (parseChunk_ewram sz st.ewram _ _ hew hew32)]
  rw [runChunkList_cons' sz suf 10 10 (8 + st.iwram.length)
    (regionHeaderBytes st.iwram.length 0 ++ st.iwram) _ _ _ (by decide)
    (by simp [regionHeaderBytes, u32le] <;> omega)
    (parseChunk_iwram sz st.iwram _ _ hiw hiw32)]
  rw [runChunkList_cons' sz suf 11 11 (8 + st.vram.length)
    (regionHeaderBytes st.vram.length 0 ++ st.vram) _ _ _ (by decide)
    (by simp [regionHeaderBytes, u32le] <;> omega)
    (parseChunk_vram sz st.vram _ _ hvr hvr32)]
  rw [runChunkList_cons' sz suf 12 12 (8 + st.palram.length)
    (regionHeaderBytes st.palram.length 0 ++ st.palram) _ _ _ (by decide)
    (by simp [regionHeaderBytes, u32le] <;> omega)
    (parseChunk_palram sz st.palram _ _ hpal hpal32)]
  rw [runChunkList_cons' sz suf 13 13 (8 + st.oam.length)
    (regionHeaderBytes st.oam.length 0 ++ st.oam) _ _ _ (by decide)
    (by simp [regionHeaderBytes, u32le] <;> omega)
    (parseChunk_oam sz st.oam _ _ hoam hoam32)]
  rfl

/-- The chunk loop skips a chunk whose decoded kind is outside 1–14 and
continues on the remaining bytes with one unit of fuel consumed. -/
theorem parseChunks_skip_unknown (sz : ChunkSizes) (fuel k : Nat)
    (p rest : List Nat) (acc : LoadAcc) (hp : p.length < 2 ^ 32)
    (hk : k % 2 ^ 32 = 0 ∨ 14 < k % 2 ^ 32) :
    parseChunks sz (fuel + 1) (u32le k ++ (u32le p.length ++ (p ++ rest)))
        acc =
      parseChunks sz fuel rest acc := by
  rw [parseChunks_step sz fuel k p rest acc hp]
  rw [parseChunk_unknown sz (leVal (u32le k)) p.length (p ++ rest) acc
    (by rw [leVal_u32le_mod]; omega) (by rw [leVal_u32le_mod]; omega)
    (by rw [leVal_u32le_mod]; omega) (by rw [leVal_u32le_mod]; omega)
    (by rw [leVal_u32le_mod]; omega) (by rw [leVal_u32le_mod]; omega)
    (by rw [leVal_u32le_mod]; omega) (by rw [leVal_u32le_mod]; omega)
    (by rw [leVal_u32le_mod]; omega) (by rw [leVal_u32le_mod]; omega)
    (by rw [leVal_u32le_mod]; omega) (by rw [leVal_u32le_mod]; omega)
    (by rw [leVal_u32le_mod]; omega) (by rw [leVal_u32le_mod]; omega)]

/-- The chunk loop on a fully encoded chunk list, with enough fuel, equals
the chunk-list dispatch. -/
theorem parseChunks_full (sz : ChunkSizes) (cs : List (Nat × List Nat))
    (fuel : Nat) (acc : LoadAcc) (hwf : ∀ c ∈ cs, (c.2).length < 2 ^ 32)
    (hfuel : cs.length ≤ fuel) :
    parseChunks sz fuel (encodeChunkList cs) acc =
      match runChunkList sz [] cs acc with
      | none => none
      | some a => some a := by
  have hpe := parseChunks_encode sz cs fuel [] acc hwf hfuel
  rw [List.append_nil] at hpe
  rw [hpe]
  cases hrc : runChunkList sz [] cs acc with
  | none => rfl
  | some a => exact parseChunks_nil _ _ _

/-- `quickload` fails when the chunk loop succeeds but `finalizeLoad`
rejects the accumulator. -/
theorem quickload_err_of (sz : ChunkSizes) (cur : SavedState)
    (rest : List Nat) (hc : cur.romCode < 2 ^ 32) (acc : LoadAcc)
    (hpc : parseChunks sz (rest.length + 17) rest (initAcc cur) = some acc)
    (hfin : finalizeLoad acc = LoadResult.err) :
    quickload sz cur (quicksaveHeaderBytes cur ++ rest) =
      LoadResult.err := by
  rw [quickload_on_header sz cur rest hc, hpc]
  exact hfin

/-- C2: `quickload` fails whenever the header version differs from 2 (i),
or the header rom_size/rom_code differ from those of the loaded ROM (ii),
or any of the twelve mandatory chunks is absent — a successful load forces
every mandatory kind to occur in the chunk stream (iii) — or the scheduler
header's `events_len` differs from the number of events actually read
(iv); an unknown, out-of-range chunk kind alone never causes failure:
prepending such a chunk leaves the result unchanged (v). -/
theorem c2_quickload_rejections :
    (∀ (sz : ChunkSizes) (cur : SavedState) (v rS rC : Nat)
        (rest : List Nat), v % 2 ^ 32 ≠ 2 →
      quickload sz cur
          (magicBytes ++ (u32le v ++ (u32le rS ++ (u32le rC ++ rest)))) =
        LoadResult.err) ∧
    (∀ (sz : ChunkSizes) (cur : SavedState) (v rS rC : Nat)
        (rest : List Nat),
      rS % 2 ^ 32 ≠ min cur.romSize (2 ^ 32 - 1) ∨
        rC % 2 ^ 32 ≠ cur.romCode →
      quickload sz cur
          (magicBytes ++ (u32le v ++ (u32le rS ++ (u32le rC ++ rest)))) =
        LoadResult.err) ∧
    (∀ (sz : ChunkSizes) (cur : SavedState) (cs : List (Nat × List Nat))
        (st : SavedState), cur.romCode < 2 ^ 32 →
      (∀ c ∈ cs, (c.2).length < 2 ^ 32) →
      quickload sz cur (quicksaveHeaderBytes cur ++ encodeChunkList cs) =
        LoadResult.ok st →
      ∀ j ∈ ([1, 2, 3, 4, 5, 6, 8, 9, 10, 11, 12, 13] : List Nat),
        ∃ c ∈ cs, c.1 % 2 ^ 32 = j) ∧
    (∀ (sz : ChunkSizes) (cur st : SavedState) (n : Nat)
        (events : List Nat), cur.romCode < 2 ^ 32 →
      st.core.length = sz.coreLen → st.io.length = sz.ioLen →
      st.ppu.length = sz.ppuLen → st.gpio.length = sz.gpioLen →
      st.apu.length = sz.apuLen → st.memMeta.length = sz.metaLen →
      st.schedCycles < 2 ^ 64 → st.schedNextEvent < 2 ^ 64 → n < 2 ^ 64 →
      events.length % sz.eventLen = 0 →
      events.length / sz.eventLen ≠ 0 →
      sz.ewramLen = st.ewram.length → sz.iwramLen = st.iwram.length →
      sz.vramLen = st.vram.length → sz.palramLen = st.palram.length →
      sz.oamLen = st.oam.length →
      st.core.length < 2 ^ 32 → st.io.length < 2 ^ 32 →
      st.ppu.length < 2 ^ 32 → st.gpio.length < 2 ^ 32 →
      st.apu.length < 2 ^ 32 → st.memMeta.length < 2 ^ 32 →
      events.length < 2 ^ 32 →
      st.ewram.length + 8 < 2 ^ 32 → st.iwram.length + 8 < 2 ^ 32 →
      st.vram.length + 8 < 2 ^ 32 → st.palram.length + 8 < 2 ^ 32 →
      st.oam.length + 8 < 2 ^ 32 →
      n ≠ events.length / sz.eventLen →
      quickload sz cur
          (quicksaveHeaderBytes cur ++
            encodeChunkList (stdChunksRaw st n events)) =
        LoadResult.err) ∧
    (∀ (sz : ChunkSizes) (cur : SavedState) (k : Nat) (p : List Nat)
        (cs : List (Nat × List Nat)), cur.romCode < 2 ^ 32 →
      p.length < 2 ^ 32 → (k % 2 ^ 32 = 0 ∨ 14 < k % 2 ^ 32) →
      (∀ c ∈ cs, (c.2).length < 2 ^ 32) →
      quickload sz cur
          (quicksaveHeaderBytes cur ++ encodeChunkList ((k, p) :: cs)) =
        quickload sz cur
          (quicksaveHeaderBytes cur ++ encodeChunkList cs)) := by
  refine ⟨?_, ?_, ?_, ?_, ?_⟩
  · intro sz cur v rS rC rest hv
    rw [quickload_header_general]
    rw [if_pos hv]
  · intro sz cur v rS rC rest h
    rw [quickload_header_general]
    by_cases hv : v % 2 ^ 32 ≠ 2
    · rw [if_pos hv]
    · rw [if_neg hv, if_pos h]
  · intro sz cur cs st hc hwf h j hj
    obtain ⟨acc, hrun, hfin⟩ := quickload_ok_structure sz cur cs st hc hwf h
    have hflags := finalizeLoad_ok_flags acc st hfin
    fin_cases hj
    · rcases runChunkList_flag_mono (fun a => a.seenCore) 1
        (fun s2 k2 z2 b2 a2 a3 hp2 hk2 =>
          (parseChunk_flags s2 k2 z2 b2 a2 a3 hp2).1 hk2)
        sz [] cs (initAcc cur) acc hrun hflags.1.1 with hstart | hex
      · exact absurd hstart (by simp [initAcc])
      · exact hex
    · rcases runChunkList_flag_mono (fun a => a.seenIo) 2
        (fun s2 k2 z2 b2 a2 a3 hp2 hk2 =>
          (parseChunk_flags s2 k2 z2 b2 a2 a3 hp2).2.1 hk2)
        sz [] cs (initAcc cur) acc hrun hflags.1.2.1 with hstart | hex
      · exact absurd hstart (by simp [initAcc])
      · exact hex
    · rcases runChunkList_flag_mono (fun a => a.seenPpu) 3
        (fun s2 k2 z2 b2 a2 a3 hp2 hk2 =>
          (parseChunk_flags s2 k2 z2 b2 a2 a3 hp2).2.2.1 hk2)
        sz [] cs (initAcc cur) acc hrun hflags.1.2.2.1 with hstart | hex
      · exact absurd hstart (by simp [initAcc])
      · exact hex
    · rcases runChunkList_flag_mono (fun a => a.seenGpio) 4
        (fun s2 k2 z2 b2 a2 a3 hp2 hk2 =>
          (parseChunk_flags s2 k2 z2 b2 a2 a3 hp2).2.2.2.1 hk2)
        sz [] cs (initAcc cur) acc hrun hflags.1.2.2.2.1 with hstart | hex
      · exact absurd hstart (by simp [initAcc])
      · exact hex
    · rcases runChunkList_flag_mono (fun a => a.seenApu) 5
        (fun s2 k2 z2 b2 a2 a3 hp2 hk2 =>
          (parseChunk_flags s2 k2 z2 b2 a2 a3 hp2).2.2.2.2.1 hk2)
        sz [] cs (initAcc cur) acc hrun hflags.1.2.2.2.2.1 with hstart | hex
      · exact absurd hstart (by simp [initAcc])
      · exact hex
    · rcases runChunkList_flag_mono (fun a => a.seenSched) 6
        (fun s2 k2 z2 b2 a2 a3 hp2 hk2 =>
          (parseChunk_flags s2 k2 z2 b2 a2 a3 hp2).2.2.2.2.2.1 hk2)
        sz [] cs (initAcc cur) acc hrun hflags.1.2.2.2.2.2.1 with hstart | hex
      · exact absurd hstart (by simp [initAcc])
      · exact hex
    · rcases runChunkList_flag_mono (fun a => a.seenMeta) 8
        (fun s2 k2 z2 b2 a2 a3 hp2 hk2 =>
          (parseChunk_flags s2 k2 z2 b2 a2 a3 hp2).2.2.2.2.2.2.1 hk2)
        sz [] cs (initAcc cur) acc hrun hflags.1.2.2.2.2.2.2.1 with hstart | hex
      · exact absurd hstart (by simp [initAcc])
      · exact hex
    · rcases runChunkList_flag_mono (fun a => a.seenEwram) 9
        (fun s2 k2 z2 b2 a2 a3 hp2 hk2 =>
          (parseChunk_flags s2 k2 z2 b2 a2 a3 hp2).2.2.2.2.2.2.2.1 hk2)
        sz [] cs (initAcc cur) acc hrun hflags.1.2.2.2.2.2.2.2.1 with hstart | hex
      · exact absurd hstart (by simp [initAcc])
      · exact hex
    · rcases runChunkList_flag_mono (fun a => a.seenIwram) 10
        (fun s2 k2 z2 b2 a2 a3 hp2 hk2 =>
          (parseChunk_flags s2 k2 z2 b2 a2 a3 hp2).2.2.2.2.2.2.2.2.1 hk2)
        sz [] cs (initAcc cur) acc hrun hflags.1.2.2.2.2.2.2.2.2.1 with hstart | hex
      · exact absurd hstart (by simp [initAcc])
      · exact hex
    · rcases runChunkList_flag_mono (fun a => a.seenVram) 11
        (fun s2 k2 z2 b2 a2 a3 hp2 hk2 =>
          (parseChunk_flags s2 k2 z2 b2 a2 a3 hp2).2.2.2.2.2.2.2.2.2.1 hk2)
        sz [] cs (initAcc cur) acc hrun hflags.1.2.2.2.2.2.2.2.2.2.1 with hstart | hex
      · exact absurd hstart (by simp [initAcc])
      · exact hex
    · rcases runChunkList_flag_mono (fun a => a.seenPalram) 12
        (fun s2 k2 z2 b2 a2 a3 hp2 hk2 =>
          (parseChunk_flags s2 k2 z2 b2 a2 a3 hp2).2.2.2.2.2.2.2.2.2.2.1 hk2)
        sz [] cs (initAcc cur) acc hrun hflags.1.2.2.2.2.2.2.2.2.2.2.1 with hstart | hex
      · exact absurd hstart (by simp [initAcc])
      · exact hex
    · rcases runChunkList_flag_mono (fun a => a.seenOam) 13
        (fun s2 k2 z2 b2 a2 a3 hp2 hk2 =>
          (parseChunk_flags s2 k2 z2 b2 a2 a3 hp2).2.2.2.2.2.2.2.2.2.2.2 hk2)
        sz [] cs (initAcc cur) acc hrun hflags.1.2.2.2.2.2.2.2.2.2.2.2 with hstart | hex
      · exact absurd hstart (by simp [initAcc])
      · exact hex
  · intro sz cur st n events hc hcore hio hppu hgpio hapu hmeta hcy hnx hn
      hdvd hm hew hiw hvr hpal hoam hc32 hio32 hppu32 hgpio32 hapu32
      hmeta32 hev32 hew8 hiw8 hvr8 hpal8 hoam8 hneq
    have hwf : ∀ c ∈ stdChunksRaw st n events, (c.2).length < 2 ^ 32 := by
      intro c hcm
      simp only [stdChunksRaw, rawRegionChunk] at hcm
      fin_cases hcm <;>
        simp [regionHeaderBytes, u32le, u64le] <;> omega
    have hrun := runChunkList_std sz cur st n events [] hcore hio hppu
      hgpio hapu hmeta hcy hnx hn hdvd hm hew (by omega) hiw (by omega)
      hvr (by omega) hpal (by omega) hoam (by omega)
    have hpe := parseChunks_full sz (stdChunksRaw st n events)
      ((encodeChunkList (stdChunksRaw st n events)).length + 17)
      (initAcc cur) hwf
      (by
        have := encodeChunkList_length_ge (stdChunksRaw st n events)
        omega)
    rw [hrun] at hpe
    refine quickload_err_of sz cur _ hc _ hpe ?_
    unfold finalizeLoad
    rw [if_pos
      (⟨rfl, rfl, rfl, rfl, rfl, rfl, rfl, rfl, rfl, rfl, rfl, rfl⟩ :
        _ ∧ _ ∧ _ ∧ _ ∧ _ ∧ _ ∧ _ ∧ _ ∧ _ ∧ _ ∧ _ ∧ _)]
    rw [if_neg hneq]
  · intro sz cur k p cs hc hp hk hwf
    rw [quickload_on_header sz cur _ hc, quickload_on_header sz cur _ hc]
    have hwf2 : ∀ c ∈ (k, p) :: cs, (c.2).length < 2 ^ 32 := by
      intro c hcm
      rcases List.mem_cons.mp hcm with h1 | h2
      · rw [h1]
        exact hp
      · exact hwf c h2
    have hL := parseChunks_full sz ((k, p) :: cs)
      ((encodeChunkList ((k, p) :: cs)).length + 17) (initAcc cur) hwf2
      (by
        have := encodeChunkList_length_ge ((k, p) :: cs)
        omega)
    have hR := parseChunks_full sz cs
      ((encodeChunkList cs).length + 17) (initAcc cur) hwf
      (by
        have := encodeChunkList_length_ge cs
        omega)
    have hskip : runChunkList sz [] ((k, p) :: cs) (initAcc cur) =
        runChunkList sz [] cs (initAcc cur) := by
      simp only [runChunkList]
      rw [parseChunk_unknown sz (leVal (u32le k)) p.length
        (p ++ (encodeChunkList cs ++ [])) (initAcc cur)
        (by rw [leVal_u32le_mod]; omega) (by rw [leVal_u32le_mod]; omega)
        (by rw [leVal_u32le_mod]; omega) (by rw [leVal_u32le_mod]; omega)
        (by rw [leVal_u32le_mod]; omega) (by rw [leVal_u32le_mod]; omega)
        (by rw [leVal_u32le_mod]; omega) (by rw [leVal_u32le_mod]; omega)
        (by rw [leVal_u32le_mod]; omega) (by rw [leVal_u32le_mod]; omega)
        (by rw [leVal_u32le_mod]; omega) (by rw [leVal_u32le_mod]; omega)
        (by rw [leVal_u32le_mod]; omega) (by rw [leVal_u32le_mod]; omega)]
    rw [hL, hR, hskip]

set_option maxRecDepth 10000 in
/-- Concrete instances of the five parts of `c2_quickload_rejections`:
a version-3 header, a wrong rom_size, the scheduler chunk forced into a
successfully loaded stream, a scheduler header declaring 5 events over a
1-event array, and an unknown kind-99 chunk prepended to the power-on
stream. -/
theorem c2_quickload_rejections_witness :
    quickload qsSizes1 qsState0
        (magicBytes ++ (u32le 3 ++ (u32le 0 ++ (u32le 0 ++ [])))) =
      LoadResult.err ∧
    quickload qsSizes1 qsState0
        (magicBytes ++ (u32le 2 ++ (u32le 1 ++ (u32le 0 ++ [])))) =
      LoadResult.err ∧
    (∃ c ∈ qsChunks1, c.1 % 2 ^ 32 = 6) ∧
    quickload qsSizes1 qsState0
        (quicksaveHeaderBytes qsState0 ++
          encodeChunkList (stdChunksRaw qsState0 5 [0])) =
      LoadResult.err ∧
    quickload qsSizes1 qsState0
        (quicksaveHeaderBytes qsState0 ++
          encodeChunkList ((99, []) :: qsChunks1)) =
      quickload qsSizes1 qsState0
        (quicksaveHeaderBytes qsState0 ++ encodeChunkList qsChunks1) :=
  ⟨c2_quickload_rejections.1 qsSizes1 qsState0 3 0 0 [] (by decide),
    c2_quickload_rejections.2.1 qsSizes1 qsState0 2 1 0 []
      (Or.inl (by decide)),
    c2_quickload_rejections.2.2.1 qsSizes1 qsState0 qsChunks1 qsState0
      (by decide) (by decide) (by rfl) 6 (by decide),
    c2_quickload_rejections.2.2.2.1 qsSizes1 qsState0 qsState0 5 [0]
      (by decide) (by decide) (by decide) (by decide) (by decide)
      (by decide) (by decide) (by decide) (by decide) (by decide)
      (by decide) (by decide) (by decide) (by decide) (by decide)
      (by decide) (by decide) (by decide) (by decide) (by decide)
      (by decide) (by decide) (by decide) (by decide) (by decide)
      (by decide) (by decide) (by decide) (by decide) (by decide),
    c2_quickload_rejections.2.2.2.2 qsSizes1 qsState0 99 [] qsChunks1
      (by decide) (by decide) (Or.inr (by decide)) (by decide)⟩
